import Mathlib

/-!
Verification of the Avatar tutoring engine (lesson_engine.py, database.py).

The Python sources are shallowly embedded as executable Lean definitions:
strings become `List Char` / `String`, Python floats become `ℚ`, SQLite rows
become lists of records, and the `LessonEngine` state machine becomes a family
of fuel-indexed total functions on a `LessonSession` record that also return
the list of emitted side effects (UI callbacks and database writes).

Python regular-expression operations used by `_normalize_answer` and
`_answer_exercise` are embedded as explicit left-to-right scanners with the
same leftmost/greedy semantics (restricted to ASCII, which covers every digit,
separator and keyword the code manipulates).
-/

namespace Avatar

/-! ### Python string primitives (ASCII model of `str.strip`, `str.lower`, `str.upper`) -/

/-- Whitespace characters recognised by Python `str.strip` (ASCII fragment). -/
def isPySpace (c : Char) : Bool :=
  c == ' ' || c == '\t' || c == '\n' || c == '\x0d' || c == '\x0b' || c == '\x0c'

/-- Python `str.lower`, ASCII fragment: map capital letters to small letters. -/
def pyLowerChar (c : Char) : Char :=
  if 'A' ≤ c ∧ c ≤ 'Z' then Char.ofNat (c.toNat + 32) else c

/-- Python `str.upper`, ASCII fragment. -/
def pyUpperChar (c : Char) : Char :=
  if 'a' ≤ c ∧ c ≤ 'z' then Char.ofNat (c.toNat - 32) else c

/-- Python `str.strip` on a character list: drop whitespace from both ends. -/
def pyStrip (l : List Char) : List Char :=
  ((l.dropWhile isPySpace).reverse.dropWhile isPySpace).reverse

def pyLower (l : List Char) : List Char := l.map pyLowerChar

def pyUpper (l : List Char) : List Char := l.map pyUpperChar

def pyStripS (s : String) : String := String.mk (pyStrip s.toList)

def pyLowerS (s : String) : String := String.mk (pyLower s.toList)

/-- Python `a in b` on strings: substring test. -/
def pySubstr (needle hay : String) : Bool :=
  decide (needle.toList <:+: hay.toList)

/-! ### The thousands-separator regular expression of `_normalize_answer`

`re.sub(r"(\d{1,3})\.(\d{3})(?!\d)", r"\1\2", t)` is a single left-to-right
pass replacing each non-overlapping leftmost match of "one to three digits,
a separator, exactly three digits not followed by a digit" by the digits with
the separator removed.  `matchAt` reproduces the greedy group `\d{1,3}`
(try three digits first, then two, then one); `subPassAux` reproduces the
scan, continuing after the end of each match without rescanning the
replacement.  The scan is written with an explicit fuel argument which is
instantiated with the length of the input (each step consumes at least one
input character, so this fuel is always sufficient). -/

/-- Take exactly `k` leading decimal digits, returning them and the rest. -/
def takeDigits : Nat → List Char → Option (List Char × List Char)
  | 0, cs => some ([], cs)
  | _ + 1, [] => none
  | k + 1, c :: cs =>
    if c.isDigit then
      match takeDigits k cs with
      | some (g, r) => some (c :: g, r)
      | none => none
    else none

/-- The negative lookahead `(?!\d)`: the next character, if any, is not a digit. -/
def noDigitAhead : List Char → Bool
  | [] => true
  | c :: _ => !c.isDigit

/-- Try to match `\d{k}sep\d{3}(?!\d)` at the head; on success return the
replacement (both digit groups, separator dropped) and the rest of the input. -/
def matchLen (sep : Char) (k : Nat) (cs : List Char) :
    Option (List Char × List Char) :=
  match takeDigits k cs with
  | some (g1, r1) =>
    match r1 with
    | s :: r2 =>
      if s = sep then
        match takeDigits 3 r2 with
        | some (g2, r3) => if noDigitAhead r3 then some (g1 ++ g2, r3) else none
        | none => none
      else none
    | [] => none
  | none => none

/-- Greedy `\d{1,3}`: try a three-digit first group, then two, then one. -/
def matchAt (sep : Char) (cs : List Char) : Option (List Char × List Char) :=
  match matchLen sep 3 cs with
  | some r => some r
  | none =>
    match matchLen sep 2 cs with
    | some r => some r
    | none => matchLen sep 1 cs

/-- One `re.sub` pass, with fuel. -/
def subPassAux (sep : Char) : Nat → List Char → List Char
  | 0, cs => cs
  | _ + 1, [] => []
  | fuel + 1, c :: cs =>
    match matchAt sep (c :: cs) with
    | some (rep, rest) => rep ++ subPassAux sep fuel rest
    | none => c :: subPassAux sep fuel cs

/-- One `re.sub(r"(\d{1,3})sep(\d{3})(?!\d)", r"\1\2", ·)` pass. -/
def subPass (sep : Char) (cs : List Char) : List Char :=
  subPassAux sep cs.length cs

/-- `LessonEngine._normalize_answer`: strip, case-fold, then collapse dot and
space thousands separators, each separator pass applied twice. -/
def _normalize_answer (text : String) : String :=
  let t := pyLower (pyStrip text.toList)
  let t := subPass '.' t
  let t := subPass '.' t
  let t := subPass ' ' t
  let t := subPass ' ' t
  String.mk t

/-! ### The `sau` (Romanian "or") alternate-answer regular expressions -/

/-- Python `\w` word characters, ASCII fragment: letters, digits, underscore. -/
def isWordChar (c : Char) : Bool := c.isAlphanum || c == '_'

/-- Case-insensitive comparison of one character against a lowercase letter. -/
def ciIs (c target : Char) : Bool := pyLowerChar c == target

/-- Does `\bsau\b` (case-insensitive) match somewhere in the text?
`prev` is the character just before the current position, if any. -/
def sauSearchAux : Option Char → List Char → Bool
  | _, [] => false
  | prev, c :: rest =>
    (ciIs c 's' &&
      (match rest with
       | a :: u :: rest2 =>
         ciIs a 'a' && ciIs u 'u' &&
           prev.all (fun p => !isWordChar p) &&
           (match rest2 with
            | [] => true
            | q :: _ => !isWordChar q)
       | _ => false)) ||
    sauSearchAux (some c) rest

/-- `re.search(r"\bsau\b", s, re.IGNORECASE)` viewed as a Boolean. -/
def sauSearch (s : String) : Bool := sauSearchAux none s.toList

/-- Match `\s+sau\s+` (case-insensitive) at the head of the input: a maximal
nonempty whitespace run, the letters "sau", and a maximal nonempty whitespace
run.  Returns the rest of the input after the match. -/
def sauSplitMatch (cs : List Char) : Option (List Char) :=
  let w1 := cs.takeWhile isPySpace
  let r1 := cs.dropWhile isPySpace
  if w1.isEmpty then none
  else
    match r1 with
    | s :: a :: u :: r2 =>
      if ciIs s 's' && ciIs a 'a' && ciIs u 'u' then
        let w2 := r2.takeWhile isPySpace
        let r3 := r2.dropWhile isPySpace
        if w2.isEmpty then none else some r3
      else none
    | _ => none

/-- `re.split(r"\s+sau\s+", s, flags=re.IGNORECASE)`, with fuel. -/
def sauSplitAux : Nat → List Char → List Char → List String
  | 0, acc, cs => [String.mk (acc.reverse ++ cs)]
  | _ + 1, acc, [] => [String.mk acc.reverse]
  | fuel + 1, acc, c :: cs =>
    match sauSplitMatch (c :: cs) with
    | some rest => String.mk acc.reverse :: sauSplitAux fuel [] rest
    | none => sauSplitAux fuel (c :: acc) cs

/-- `re.split(r"\s+sau\s+", s, flags=re.IGNORECASE)`. -/
def sauSplit (s : String) : List String :=
  sauSplitAux s.toList.length [] s.toList

/-! ### Data model of `lesson_engine.py` -/

/-- `LessonState` enumeration. -/
inductive LessonState
  | IDLE | WARMUP | PRE_TEST | LESSON_INTRO | LESSON_CHUNK | MICRO_QUIZ
  | PRACTICE | POST_TEST | SUMMARY | DONE | PAUSED
deriving DecidableEq, Repr

/-- One row of the `exercises` table as the engine consumes it (after
`Database.get_exercises`).  Missing SQL values are encoded by the value Python
treats as falsy: `0` for the numeric columns, `""` for text, `[]` for the
JSON-decoded `skill_codes`. -/
structure Exercise where
  id : Nat
  enunt : String
  raspuns : String
  explicatie : String
  skill_codes : List String
  dificultate : Nat
  difficulty_tier : Nat
deriving DecidableEq, Repr

/-- `int(e.get("difficulty_tier") or e.get("dificultate") or 1)` with Python
falsy chaining. -/
def effTier (e : Exercise) : Nat :=
  if e.difficulty_tier ≠ 0 then e.difficulty_tier
  else if e.dificultate ≠ 0 then e.dificultate
  else 1

/-- The fields of a `lessons` row that the engine reads. -/
structure Lesson where
  id : Nat
  title : String
  subject : String
  grade : Nat
  theory : String
  summary : String
deriving DecidableEq, Repr

/-- The `meta` dictionary passed to `submit_answer` (absent keys are the falsy
default `0.0`). -/
structure AnswerMeta where
  time_sec : ℚ
  edits : ℚ
deriving DecidableEq, Repr

/-- `QuestionResult` dataclass. -/
structure QuestionResult where
  exercise_id : Nat
  user_answer : String
  is_correct : Bool
  hints_used : Nat
  time_sec : ℚ
  feedback : String
  meta : AnswerMeta
deriving DecidableEq, Repr

/-- Side effects of the engine: UI callbacks, TTS output, prints and database
writes, in the order the Python code performs them.  The wall-clock
`duration_s` argument of `end_session` is not modelled. -/
inductive Effect
  | stateChange (st : LessonState)
  | avatarMessage (text emotion : String)
  | emitEmotion (emotion : String) (intensity : ℚ)
  | ttsSpeak (text : String)
  | showText (text : String)
  | showExercise (ex : Exercise) (pos total : Nat)
  | showScratchpad (chunk : String)
  | exerciseResult (qr : QuestionResult)
  | phaseComplete (phase : String) (score : ℚ)
  | streakMilestone (n : Nat)
  | dbRecordAnswer (session_id exercise_id : Nat) (user_answer : String)
      (is_correct : Bool) (hints_used : Nat) (time_sec : ℚ)
  | dbUpdateUserSkills (user_id : Nat) (codes : List String) (is_correct : Bool)
      (time_sec : ℚ) (hints_used : Nat) (weight : ℚ)
  | dbRecordSrsAnswer (user_id exercise_id quality : Nat)
  | dbMarkExerciseWrong (user_id exercise_id : Nat)
  | dbEndSession (session_id : Nat) (score : ℚ) (total_q correct_q : Nat)
  | dbUpdateProgress (user_id lesson_id : Nat) (score : ℚ) (passed : Bool)
  | sessionDone
  | logMessage (text : String)
deriving DecidableEq, Repr

/-- `LessonSession` dataclass, together with the two per-session attributes the
engine object keeps next to it (`_micro_quiz_ex`, `_waiting_for_continue`).
`session_id = 0` encodes Python `None` (both are falsy). -/
structure LessonSession where
  user_id : Nat
  lesson : Lesson
  state : LessonState
  warmup_exercises : List Exercise
  srs_exercise_ids : List Nat
  pretest_exercises : List Exercise
  practice_exercises : List Exercise
  posttest_exercises : List Exercise
  pretest_results : List QuestionResult
  practice_results : List QuestionResult
  posttest_results : List QuestionResult
  current_exercise_idx : Nat
  current_hints_used : Nat
  theory_chunks : List String
  current_chunk_idx : Nat
  session_id : Nat
  correct_streak : Nat
  consecutive_wrong : Nat
  avg_answer_time : ℚ
  avg_edits : ℚ
  answers_count : Nat
  current_tier : Nat
  tier_up_streak : Nat
  tier_down_count : Nat
  micro_quiz_ex : Option Exercise
  waiting_for_continue : Bool
deriving DecidableEq, Repr

/-- Field defaults of the `LessonSession` dataclass. -/
def mkLessonSession (user_id : Nat) (lesson : Lesson) : LessonSession where
  user_id := user_id
  lesson := lesson
  state := LessonState.IDLE
  warmup_exercises := []
  srs_exercise_ids := []
  pretest_exercises := []
  practice_exercises := []
  posttest_exercises := []
  pretest_results := []
  practice_results := []
  posttest_results := []
  current_exercise_idx := 0
  current_hints_used := 0
  theory_chunks := []
  current_chunk_idx := 0
  session_id := 0
  correct_streak := 0
  consecutive_wrong := 0
  avg_answer_time := 0
  avg_edits := 0
  answers_count := 0
  current_tier := 2
  tier_up_streak := 0
  tier_down_count := 0
  micro_quiz_ex := none
  waiting_for_continue := false

/-- External collaborators of the engine, injected exactly as the Python object
holds them: the misconception engine (`self._mis.feedback`), the message bank
(`tts_engine.get_message`), the TTS text sanitiser
(`sanitize_markdown_for_tts(·, keep_headings=False)`), the chunk classifier
(`md_library.classify_chunk`) and the micro-quiz lookup
(`db.get_micro_quiz_for_lesson` for the session's lesson). -/
structure Env where
  misFeedback : String → String → String → String → Option String
  getMessage : String → String
  sanitize : String → String
  classifyChunk : String → String
  microQuiz : Nat → Option Exercise

/-! ### Engine constants and small helpers -/

def PRETEST_COUNT : Nat := 3
def PRACTICE_COUNT : Nat := 8
def POSTTEST_COUNT : Nat := 5
def PRETEST_PASS_SCORE : ℚ := 70.0
def POSTTEST_PASS_SCORE : ℚ := 75.0

/-- `LessonSession.get_score`. -/
def get_score (results : List QuestionResult) : ℚ :=
  if results.isEmpty then 0.0
  else ((results.countP (·.is_correct) : ℚ) / (results.length : ℚ)) * 100.0

/-- `LessonSession.get_pretest_score`. -/
def get_pretest_score (s : LessonSession) : ℚ :=
  if s.pretest_results.isEmpty then 100.0 else get_score s.pretest_results

/-- `LessonSession.get_practice_score`. -/
def get_practice_score (s : LessonSession) : ℚ :=
  get_score s.practice_results

/-- `LessonSession.get_posttest_score` (posttest results, falling back to the
practice results when the posttest produced none). -/
def get_posttest_score (s : LessonSession) : ℚ :=
  if !s.posttest_results.isEmpty then get_score s.posttest_results
  else if !s.practice_results.isEmpty then get_score s.practice_results
  else 0.0

/-- `LessonEngine._get_current_exercises`. -/
def _get_current_exercises (s : LessonSession) : List Exercise :=
  match s.state with
  | LessonState.WARMUP => s.warmup_exercises
  | LessonState.PRE_TEST => s.pretest_exercises
  | LessonState.PRACTICE => s.practice_exercises
  | LessonState.POST_TEST => s.posttest_exercises
  | _ => []

/-- `LessonEngine._emit_emotion`. -/
def _emit_emotion (emotion : String) (intensity : ℚ) : List Effect :=
  [Effect.emitEmotion emotion intensity]

/-- `LessonEngine._transition_to`. -/
def _transition_to (s : LessonSession) (st : LessonState) :
    LessonSession × List Effect :=
  ({ s with state := st }, [Effect.stateChange st])

/-- `LessonEngine._speak`: sanitise, avatar message, emotion, TTS, text. -/
def _speak (env : Env) (text emotion : String) : List Effect :=
  let clean := env.sanitize text
  [Effect.avatarMessage clean emotion] ++ _emit_emotion emotion 0.5 ++
    [Effect.ttsSpeak clean, Effect.showText clean]

/-- `LessonEngine._calc_srs_quality`: map performance to an SM-2 quality. -/
def _calc_srs_quality (is_correct : Bool) (hints_used : Nat)
    (time_sec avg_time : ℚ) : Nat :=
  if !is_correct then 1
  else if hints_used ≥ 2 then 2
  else if hints_used == 1 then 3
  else if time_sec > 0 ∧ avg_time > 0 ∧ time_sec ≤ avg_time * 0.7 then 5
  else 4

/-- `tier_weights = {1: 0.33, 2: 0.67, 3: 1.0, 4: 1.33}` with `.get(tier, 1.0)`. -/
def tierWeight (tier : Nat) : ℚ :=
  if tier == 1 then 0.33
  else if tier == 2 then 0.67
  else if tier == 3 then 1.0
  else if tier == 4 then 1.33
  else 1.0

/-- `LessonEngine._split_theory`: split the theory text on blank lines, closing
a chunk when the joined buffer exceeds 240 characters, and keep only chunks of
more than 10 characters. -/
def _split_theory (text : String) : List String :=
  let parts := (text.splitOn "\n").map pyStripS
  let step := fun (st : List String × List String) (p : String) =>
    if p = "" then
      if !st.2.isEmpty then
        (st.1 ++ [pyStripS (String.intercalate " " st.2)], [])
      else st
    else
      let buf := st.2 ++ [p]
      if (String.intercalate " " buf).length > 240 then
        (st.1 ++ [pyStripS (String.intercalate " " buf)], [])
      else (st.1, buf)
  let res := parts.foldl step ([], [])
  let chunks :=
    if !res.2.isEmpty then res.1 ++ [pyStripS (String.intercalate " " res.2)]
    else res.1
  chunks.filter (fun c => c.length > 10)

/-- Number format used in the final summary; abstracts Python `f"{x:.0f}"`. -/
def fmt0 (q : ℚ) : String := toString (round q)

/-- Number format used in the final summary; abstracts Python `f"{x:.1f}"`. -/
def fmt1 (q : ℚ) : String := toString (round (q * 10) : ℤ) ++ "/10"

/-- `LessonEngine._finish_session` (not recursive: computes the final scores,
persists them, speaks the summary and terminates the session). -/
def _finish_session (env : Env) (s : LessonSession) :
    LessonSession × List Effect :=
  let pre := get_pretest_score s
  let post := get_posttest_score s
  let practice := get_practice_score s
  let passed : Bool := post ≥ POSTTEST_PASS_SCORE
  let dbFx : List Effect :=
    if s.session_id ≠ 0 then
      [Effect.dbEndSession s.session_id post
        (s.posttest_results.length + s.practice_results.length +
          s.pretest_results.length)
        (if !s.posttest_results.isEmpty then
          (((post / 100.0) * (max 1 s.posttest_results.length : ℚ)).floor).toNat
         else 0),
       Effect.dbUpdateProgress s.user_id s.lesson.id post passed]
    else []
  let (s, fx1) := _transition_to s LessonState.SUMMARY
  let summary :=
    "Rezumat: Pre-test " ++ fmt0 pre ++ "%, Practică " ++ fmt0 practice ++
      "%, Post-test " ++ fmt0 post ++ "%.\n" ++
    "Timp mediu/răspuns: " ++ fmt1 s.avg_answer_time ++ "s, Editări medii: " ++
      fmt1 s.avg_edits ++ ".\n" ++
    (if passed then "Felicitări! Ai trecut lectia!"
     else "Bun efort! Mai exersam putin si data viitoare va fi mai usor!")
  let fx2 := _emit_emotion (if passed then "excited" else "encouraging")
    (if passed then 1.0 else 0.7)
  let fx3 := _speak env summary (if passed then "happy" else "encouraging")
  let (s, fx4) := _transition_to s LessonState.DONE
  (s, dbFx ++ fx1 ++ fx2 ++ fx3 ++ fx4 ++ [Effect.sessionDone])

/-! ### The state machine proper

The phase-advancing procedures of `LessonEngine` call each other; the session
state only moves forward along the phases, so the call depth is bounded, and
the embedding makes this explicit with a fuel argument: every call from one
member of the family to another spends one unit of fuel, and out of fuel the
functions return the session unchanged (this never happens from the fuel
budgets used below, which exceed the maximal call depth). -/

mutual

/-- `LessonEngine._show_current_exercise`. -/
def _show_current_exercise (env : Env) :
    Nat → LessonSession → LessonSession × List Effect
  | 0, s => (s, [])
  | fuel + 1, s =>
    let exercises := _get_current_exercises s
    let idx := s.current_exercise_idx
    if h : idx < exercises.length then
      (s, [Effect.showExercise (exercises.get ⟨idx, h⟩) (idx + 1)
            exercises.length])
    else
      _complete_phase env fuel s
termination_by structural fuel => fuel

/-- `LessonEngine._complete_phase`. -/
def _complete_phase (env : Env) :
    Nat → LessonSession → LessonSession × List Effect
  | 0, s => (s, [])
  | fuel + 1, s =>
    if s.state = LessonState.WARMUP then
      let fx := _speak env "Bine! Încălzire gata. Acum trecem la lecția de azi!" "happy"
      if !s.pretest_exercises.isEmpty then
        let (s, fx1) := _transition_to s LessonState.PRE_TEST
        let (s, fx2) := _start_pretest env fuel s
        (s, fx ++ fx1 ++ fx2)
      else
        let (s, fx1) := _start_intro env fuel s
        (s, fx ++ fx1)
    else if s.state = LessonState.PRE_TEST then
      let score := get_pretest_score s
      let fx := [Effect.phaseComplete "pretest" score]
      if score ≥ PRETEST_PASS_SCORE then
        let fx1 := _speak env
          "Super! Se pare că știi deja baza. Facem o recapitulare scurtă și trecem la exerciții mai grele."
          "excited"
        let s := { s with current_chunk_idx := s.theory_chunks.length - 2 }
        let (s, fx2) := _transition_to s LessonState.LESSON_CHUNK
        let (s, fx3) := _show_current_chunk env fuel s
        (s, fx ++ fx1 ++ fx2 ++ fx3)
      else
        let (s, fx1) := _start_intro env fuel s
        (s, fx ++ fx1)
    else if s.state = LessonState.PRACTICE then
      let score := get_practice_score s
      let (s, fx1) := _start_posttest env fuel s
      (s, [Effect.phaseComplete "practice" score] ++ fx1)
    else if s.state = LessonState.POST_TEST then
      let score := get_posttest_score s
      let (s, fx1) := _finish_session env s
      (s, [Effect.phaseComplete "posttest" score] ++ fx1)
    else (s, [])
termination_by structural fuel => fuel

/-- `LessonEngine._start_pretest` (the caller has already transitioned the
session to `PRE_TEST`). -/
def _start_pretest (env : Env) :
    Nat → LessonSession → LessonSession × List Effect
  | 0, s => (s, [])
  | fuel + 1, s =>
    let s := { s with current_exercise_idx := 0, current_hints_used := 0 }
    let fx := _speak env "Începem cu un mini-test rapid. 3 întrebări!" "talking"
    let (s, fx1) := _show_current_exercise env fuel s
    (s, fx ++ fx1)
termination_by structural fuel => fuel

/-- `LessonEngine._start_intro`: show the title, then jump straight to the
first theory chunk. -/
def _start_intro (env : Env) :
    Nat → LessonSession → LessonSession × List Effect
  | 0, s => (s, [])
  | fuel + 1, s =>
    let (s, fx1) := _transition_to s LessonState.LESSON_INTRO
    let intro := "Astăzi învățăm: " ++ s.lesson.title ++ "."
    let fx2 := [Effect.avatarMessage intro "happy"]
    let s := { s with current_chunk_idx := 0 }
    let (s, fx3) := _transition_to s LessonState.LESSON_CHUNK
    let (s, fx4) := _show_current_chunk env fuel s
    (s, fx1 ++ fx2 ++ fx3 ++ fx4)
termination_by structural fuel => fuel

/-- `LessonEngine._start_practice`. -/
def _start_practice (env : Env) :
    Nat → LessonSession → LessonSession × List Effect
  | 0, s => (s, [])
  | fuel + 1, s =>
    let (s, fx1) := _transition_to s LessonState.PRACTICE
    let s := { s with current_exercise_idx := 0, current_hints_used := 0 }
    let fx2 := _speak env "Acum exersăm împreună. Începe cu primul exercițiu!" "encouraging"
    let (s, fx3) := _show_current_exercise env fuel s
    (s, fx1 ++ fx2 ++ fx3)
termination_by structural fuel => fuel

/-- `LessonEngine._start_posttest`: synthesises a posttest from the hardest
practice exercises when the lesson has none. -/
def _start_posttest (env : Env) :
    Nat → LessonSession → LessonSession × List Effect
  | 0, s => (s, [])
  | fuel + 1, s =>
    let (s, fx1) := _transition_to s LessonState.POST_TEST
    let s := { s with current_exercise_idx := 0, current_hints_used := 0 }
    let pair :=
      if s.posttest_exercises.isEmpty ∧ !s.practice_exercises.isEmpty then
        let candidates := s.practice_exercises.mergeSort
          (fun a b => decide (effTier b ≤ effTier a))
        let chosen := candidates.take POSTTEST_COUNT
        ({ s with posttest_exercises := chosen },
         [Effect.logMessage ("Posttest gol — folosim " ++
            toString chosen.length ++
            " exerciții practice (cele mai grele) ca test final")])
      else (s, ([] : List Effect))
    let s := pair.1
    let fx2 := pair.2 ++ _emit_emotion "thinking" 0.6 ++
      _speak env "Gata! Facem un test scurt de final." "talking"
    let (s, fx3) := _show_current_exercise env fuel s
    (s, fx1 ++ fx2 ++ fx3)
termination_by structural fuel => fuel

/-- `LessonEngine._show_current_chunk`. -/
def _show_current_chunk (env : Env) :
    Nat → LessonSession → LessonSession × List Effect
  | 0, s => (s, [])
  | fuel + 1, s =>
    if s.theory_chunks.isEmpty then _start_practice env fuel s
    else
      let idx := s.current_chunk_idx
      if h : idx < s.theory_chunks.length then
        let chunk := pyStripS (s.theory_chunks.get ⟨idx, h⟩)
        let chunk_type := env.classifyChunk chunk
        let fx1 :=
          if chunk_type = "task" then
            let first_line := pyStripS (String.mk
              (((chunk.splitOn "\n").headD "").toList.take 160))
            _speak env ("Uite ce ai de făcut: " ++ first_line ++
              " Scrie pașii în spațiul de lucru, apoi pune răspunsul final.")
              "talking" ++ [Effect.showScratchpad chunk]
          else
            _speak env chunk "talking"
        match env.microQuiz idx with
        | some mq =>
          let s := { s with micro_quiz_ex := some mq }
          let (s, fx2) := _transition_to s LessonState.MICRO_QUIZ
          (s, fx1 ++ fx2 ++
            [Effect.showExercise mq (idx + 1) s.theory_chunks.length])
        | none =>
          ({ s with micro_quiz_ex := none }, fx1)
      else
        _start_practice env fuel s
termination_by structural fuel => fuel

end

/-- `LessonEngine._trigger_alt_explanation`: after three consecutive wrong
answers, re-explain from another theory chunk (round-robin), or give a short
recap when only one chunk exists. -/
def _trigger_alt_explanation (env : Env) (fuel : Nat) (s : LessonSession) :
    LessonSession × List Effect :=
  let chunks := s.theory_chunks
  if chunks.isEmpty then _show_current_exercise env fuel s
  else
    let n := chunks.length
    let current := min s.current_chunk_idx (n - 1)
    if n == 1 then
      let recap := pyStripS (String.mk ((chunks.headD "").toList.take 220))
      let fx := _speak env
        ("Hai să revedem esențialul: " ++ recap ++ ". Încearcă din nou!")
        "encouraging"
      let (s, fx1) := _show_current_exercise env fuel s
      (s, fx ++ fx1)
    else
      let alt_idx := (current + 1) % n
      let s := { s with current_chunk_idx := alt_idx }
      let fx := _speak env
        "Ai răspuns greșit de trei ori. Hai să revedem lecția dintr-un alt unghi!"
        "encouraging"
      let (s, fx1) := _transition_to s LessonState.LESSON_CHUNK
      (s, fx ++ fx1)

/-- `LessonEngine._answer_micro_quiz`. -/
def _answer_micro_quiz (env : Env) (fuel : Nat) (s : LessonSession)
    (answer : String) : LessonSession × List Effect :=
  match s.micro_quiz_ex with
  | none =>
    let (s, fx1) := _transition_to s LessonState.LESSON_CHUNK
    let s := { s with current_chunk_idx := s.current_chunk_idx + 1 }
    let (s, fx2) := _show_current_chunk env fuel s
    (s, fx1 ++ fx2)
  | some ex =>
    let expected := pyLowerS (pyStripS ex.raspuns)
    let got := pyLowerS (pyStripS answer)
    let ok : Bool := got == expected || pySubstr expected got
    if ok then
      let fx := _speak env (env.getMessage "encourage") "happy"
      let (s, fx1) := _transition_to s LessonState.LESSON_CHUNK
      let s := { s with current_chunk_idx := s.current_chunk_idx + 1 }
      let (s, fx2) := _show_current_chunk env fuel s
      (s, fx ++ fx1 ++ fx2)
    else
      let fx := _speak env "Ok, hai să mai luăm o dată cu un exemplu simplu." "thinking"
      let (s, fx1) := _transition_to s LessonState.LESSON_CHUNK
      let (s, fx2) := _show_current_chunk env fuel s
      (s, fx ++ fx1 ++ fx2)

/-- The grading step of `_answer_exercise`: normalized comparison, with
`sau`-separated alternates accepted when plain comparison fails. -/
def gradeAnswer (correct user : String) : Bool :=
  let correct_n := _normalize_answer correct
  let user_n := _normalize_answer user
  let is_correct : Bool := user_n == correct_n
  if !is_correct && sauSearch correct then
    ((sauSplit correct).map _normalize_answer).contains user_n
  else is_correct

/-- The running-average updates of `_answer_exercise` ("2026" hesitation
proxies). -/
def updateAverages (s : LessonSession) (time_sec edits : ℚ) : LessonSession :=
  let n := s.answers_count + 1
  { s with
    answers_count := n,
    avg_answer_time := (s.avg_answer_time * ((n : ℚ) - 1) + time_sec) / (n : ℚ),
    avg_edits := (s.avg_edits * ((n : ℚ) - 1) + edits) / (n : ℚ) }

/-- The streak/feedback block of `_answer_exercise`: update the streak
counters, choose the feedback text and emit the streak emotions. -/
def feedbackPhase (env : Env) (s : LessonSession) (ex : Exercise)
    (correct user : String) (is_correct : Bool) :
    LessonSession × String × List Effect :=
  if is_correct then
    let s := { s with
      correct_streak := s.correct_streak + 1,
      consecutive_wrong := 0,
      tier_up_streak := s.tier_up_streak + 1,
      tier_down_count := 0 }
    let feedback := env.getMessage "encourage"
    let streak := s.correct_streak
    let fx :=
      if streak ≥ 10 then
        _emit_emotion "excited" 1.0 ++ [Effect.streakMilestone streak]
      else if streak ≥ 5 then
        _emit_emotion "excited" 0.85 ++ [Effect.streakMilestone streak]
      else if streak ≥ 3 then
        _emit_emotion "happy" 0.9 ++ [Effect.streakMilestone streak]
      else _emit_emotion "happy" 0.6
    (s, feedback, fx)
  else
    let s := { s with
      correct_streak := 0,
      consecutive_wrong := s.consecutive_wrong + 1,
      tier_up_streak := 0,
      tier_down_count := s.tier_down_count + 1 }
    let fb := (env.misFeedback s.lesson.subject ex.enunt correct user).getD ""
    let feedback :=
      if fb ≠ "" then fb
      else if ex.explicatie ≠ "" then ex.explicatie
      else env.getMessage "try_again"
    let fx :=
      if s.consecutive_wrong ≥ 2 then _emit_emotion "encouraging" 0.8
      else _emit_emotion "sad" 0.5
    (s, feedback, fx)

/-- The DDA (dynamic difficulty adjustment) block of `_answer_exercise`:
upgrade the tier after three consecutive correct answers, else downgrade it
after two consecutive mistakes. -/
def ddaPhase (s : LessonSession) : LessonSession × List Effect :=
  if s.tier_up_streak ≥ 3 ∧ s.current_tier < 3 then
    let s := { s with current_tier := min 3 (s.current_tier + 1),
                      tier_up_streak := 0 }
    (s, [Effect.avatarMessage
          ("Fantastic! Trecem la nivelul " ++ toString s.current_tier ++
            " — exerciții mai dificile!") "happy"] ++
        _emit_emotion "excited" 1.0)
  else if s.tier_down_count ≥ 2 ∧ s.current_tier > 1 then
    let s := { s with current_tier := max 1 (s.current_tier - 1),
                      tier_down_count := 0 }
    (s, [Effect.avatarMessage
          ("Hai să consolidăm nivelul " ++ toString s.current_tier ++
            " — ne pregătim mai bine!") "neutral"] ++
        _emit_emotion "thinking" 0.6)
  else (s, [])

/-- Append the `QuestionResult` to the result list of the current phase. -/
def storeResult (s : LessonSession) (qr : QuestionResult) : LessonSession :=
  if s.state = LessonState.PRE_TEST then
    { s with pretest_results := s.pretest_results ++ [qr] }
  else if s.state = LessonState.PRACTICE then
    { s with practice_results := s.practice_results ++ [qr] }
  else if s.state = LessonState.POST_TEST then
    { s with posttest_results := s.posttest_results ++ [qr] }
  else s

/-- The skill codes forwarded to the mastery tracker: the exercise's own codes,
or a code derived from the lesson's subject and grade when it has none. -/
def skillCodesFor (s : LessonSession) (ex : Exercise) : List String :=
  if !ex.skill_codes.isEmpty then ex.skill_codes
  else
    let subj := String.mk (pyUpper s.lesson.subject.toList)
    let pre :=
      if pySubstr "MAT" subj then "MATH"
      else if pySubstr "ROM" subj || pySubstr "COMUNICARE" subj then "RO"
      else "GEN"
    [pre ++ "_" ++ toString s.lesson.grade]

/-- The database writes of `_answer_exercise`, in program order. -/
def answerDbEffects (s : LessonSession) (ex : Exercise) (qr : QuestionResult) :
    List Effect :=
  (if s.session_id ≠ 0 ∧ qr.exercise_id > 0 then
    [Effect.dbRecordAnswer s.session_id qr.exercise_id qr.user_answer
      qr.is_correct qr.hints_used qr.time_sec]
   else []) ++
  (if s.session_id ≠ 0 then
    [Effect.dbUpdateUserSkills s.user_id (skillCodesFor s ex) qr.is_correct
      qr.time_sec qr.hints_used (tierWeight s.current_tier)]
   else []) ++
  (if qr.exercise_id > 0 ∧ s.session_id ≠ 0 then
    [Effect.dbRecordSrsAnswer s.user_id qr.exercise_id
      (_calc_srs_quality qr.is_correct qr.hints_used qr.time_sec
        (if s.avg_answer_time ≠ 0 then s.avg_answer_time else 30.0))]
   else []) ++
  (if !qr.is_correct ∧ qr.exercise_id > 0 then
    [Effect.dbMarkExerciseWrong s.user_id qr.exercise_id]
   else [])

/-- The straight-line section of `_answer_exercise` (grading, averages,
streak/feedback, DDA, result storage and the emitted effects), before the
final three-wrong-answers dispatch.  Returns the updated session, the
`QuestionResult` and the effects emitted so far. -/
def answerCore (env : Env) (s : LessonSession) (ex : Exercise)
    (answer : String) (meta : AnswerMeta) :
    LessonSession × QuestionResult × List Effect :=
  let correct := pyStripS ex.raspuns
  let user := pyStripS answer
  let is_correct := gradeAnswer correct user
  let s := updateAverages s meta.time_sec meta.edits
  let fbRes := feedbackPhase env s ex correct user is_correct
  let s := fbRes.1
  let feedback := fbRes.2.1
  let fbFx := fbRes.2.2
  let ddaRes := ddaPhase s
  let s := ddaRes.1
  let tierFx := ddaRes.2
  let qr : QuestionResult :=
    { exercise_id := ex.id
      user_answer := user
      is_correct := is_correct
      hints_used := s.current_hints_used
      time_sec := meta.time_sec
      feedback := feedback
      meta := meta }
  let s := storeResult s qr
  let dbFx := answerDbEffects s ex qr
  let resFx := [Effect.exerciseResult qr]
  let speakFx := _speak env feedback (if is_correct then "happy" else "sad")
  (s, qr, fbFx ++ tierFx ++ dbFx ++ resFx ++ speakFx)

/-- `LessonEngine._answer_exercise`.  Returns `none` when the current exercise
index is out of range (where Python would raise `IndexError`). -/
def _answer_exercise (env : Env) (fuel : Nat) (s : LessonSession)
    (answer : String) (meta : AnswerMeta) :
    Option (LessonSession × List Effect) :=
  let exercises := _get_current_exercises s
  let idx := s.current_exercise_idx
  if h : idx < exercises.length then
    let ex := exercises.get ⟨idx, h⟩
    let core := answerCore env s ex answer meta
    let s := core.1
    let fxAll := core.2.2
    if s.consecutive_wrong ≥ 3 then
      let s := { s with consecutive_wrong := 0, current_hints_used := 0,
                        current_exercise_idx := s.current_exercise_idx + 1 }
      let altRes := _trigger_alt_explanation env fuel s
      some (altRes.1, fxAll ++ altRes.2)
    else
      some ({ s with current_hints_used := 0,
                     current_exercise_idx := s.current_exercise_idx + 1,
                     waiting_for_continue := true }, fxAll)
  else none

/-- `LessonEngine.submit_answer`: dispatch on the session state; answers
submitted in any other state are ignored. -/
def submit_answer (env : Env) (fuel : Nat) (s : LessonSession)
    (answer : String) (meta : AnswerMeta) :
    Option (LessonSession × List Effect) :=
  if s.state = LessonState.PRE_TEST ∨ s.state = LessonState.PRACTICE ∨
      s.state = LessonState.POST_TEST then
    _answer_exercise env fuel s answer meta
  else if s.state = LessonState.MICRO_QUIZ then
    some (_answer_micro_quiz env fuel s answer)
  else some (s, [])

/-- `LessonEngine._start_warmup` (the caller has already transitioned the
session to `WARMUP`; the function additionally fires the state-change callback
directly). -/
def _start_warmup (env : Env) (fuel : Nat) (s : LessonSession) :
    LessonSession × List Effect :=
  let s := { s with current_exercise_idx := 0, current_hints_used := 0 }
  let n := s.warmup_exercises.length
  let fx := _speak env
    ("Jocul de Încălzire! Hai să recapitulăm " ++ toString n ++
      " exerciții din lecțiile anterioare înainte să începem ceva nou.")
    "talking"
  let (s, fx1) := _show_current_exercise env fuel s
  (s, fx ++ [Effect.stateChange LessonState.WARMUP] ++ fx1)

/-- The session as `start` has populated it just before dispatching on the
warm-up/pretest content (exercise lists, split theory, session id; the warm-up
fields are those of the default dataclass unless SRS items were due, in which
case `start` fills them before transitioning). -/
def startSession (user_id : Nat) (lesson : Lesson)
    (pretest practice posttest warmup : List Exercise) (srs_ids : List Nat)
    (session_id : Nat) : LessonSession :=
  { mkLessonSession user_id lesson with
      pretest_exercises := pretest,
      practice_exercises := practice,
      posttest_exercises := posttest,
      warmup_exercises := warmup,
      srs_exercise_ids := srs_ids,
      theory_chunks := _split_theory lesson.theory,
      session_id := session_id }

/-- `LessonEngine.start`.  The database reads performed by `start`
(`get_lesson`, the three `get_exercises` calls, `start_session`, `get_srs_due`)
are passed in as arguments; a missing lesson yields `none` (the Python code
logs and returns without creating a session). -/
def start (env : Env) (fuel : Nat) (user_id : Nat) (lessonOpt : Option Lesson)
    (pretest practice posttest srs_due : List Exercise) (session_id : Nat) :
    Option (LessonSession × List Effect) :=
  match lessonOpt with
  | none => none
  | some lesson =>
    if !srs_due.isEmpty then
      let s := startSession user_id lesson pretest practice posttest srs_due
        ((srs_due.map (·.id)).dedup) session_id
      let (s, fx1) := _transition_to s LessonState.WARMUP
      let (s, fx2) := _start_warmup env fuel s
      some (s, fx1 ++ fx2)
    else if !pretest.isEmpty then
      let s := startSession user_id lesson pretest practice posttest [] []
        session_id
      let (s, fx1) := _transition_to s LessonState.PRE_TEST
      let (s, fx2) := _start_pretest env fuel s
      some (s, fx1 ++ fx2)
    else
      some (_start_intro env fuel
        (startSession user_id lesson pretest practice posttest [] [] session_id))

/-! ### Database layer (`database.py`): skill mastery tracking and the
adaptive exercise selector.  The `user_skill` table is modelled, for one
learner, as a list of rows; `UNIQUE(user_id, skill_code)` makes the
`skill_code` column a key. -/

/-- One `user_skill` row of a fixed learner. -/
structure SkillRecord where
  skill_code : String
  mastery : ℚ
  attempts : Nat
  correct : Nat
  avg_time : ℚ
  skill_streak : Nat
  mastery_level : Nat
  last_practiced : String
deriving DecidableEq, Repr

/-- `SELECT * FROM user_skill WHERE user_id=? AND skill_code=?`. -/
def findRow (table : List SkillRecord) (code : String) : Option SkillRecord :=
  table.find? (fun r => r.skill_code == code)

/-- The per-skill-code body of `Database.update_user_skills`: insert a fresh
row on first touch, else update mastery, counters, the response-time average
and (at most once per calendar day) the discrete mastery level.  `row` is the
existing row if any and `today` is the current calendar date.  (The
`hints_used` argument of the Python function is unused by its body.) -/
def update_user_skill_row (row : Option SkillRecord) (code : String)
    (is_correct : Bool) (weight time_sec : ℚ) (today : String) : SkillRecord :=
  match row with
  | none =>
    { skill_code := code
      mastery := if is_correct then 0.6 else 0.2
      attempts := 1
      correct := if is_correct then 1 else 0
      avg_time := if time_sec > 0 then time_sec else 0.0
      skill_streak := if is_correct then 1 else 0
      mastery_level := 0
      last_practiced := today }
  | some r =>
    let attempts := r.attempts + 1
    let correct := r.correct + (if is_correct then 1 else 0)
    let delta := (if is_correct then (0.15 : ℚ) else -0.10) * weight
    let mastery := max 0.0 (min 1.0 (r.mastery + delta))
    let avg_time :=
      if time_sec > 0 then r.avg_time * 0.8 + time_sec * 0.2 else r.avg_time
    let skill_streak := if is_correct then r.skill_streak + 1 else 0
    let new_level :=
      if r.last_practiced ≠ today then
        let accuracy : ℚ := (correct : ℚ) / ((max 1 attempts : Nat) : ℚ)
        let lvl :=
          if accuracy ≥ 0.90 ∧ attempts ≥ 12 then max r.mastery_level 3
          else if accuracy ≥ 0.85 ∧ attempts ≥ 8 then max r.mastery_level 2
          else if accuracy ≥ 0.80 ∧ attempts ≥ 5 then max r.mastery_level 1
          else r.mastery_level
        if accuracy < 0.50 ∧ attempts ≥ 10 ∧ lvl > 0 then lvl - 1 else lvl
      else r.mastery_level
    { skill_code := r.skill_code
      mastery := mastery
      attempts := attempts
      correct := correct
      avg_time := avg_time
      skill_streak := skill_streak
      mastery_level := new_level
      last_practiced := today }

/-- Write the updated row back (`INSERT` or `UPDATE` keyed on `skill_code`). -/
def upsertRow (table : List SkillRecord) (r : SkillRecord) : List SkillRecord :=
  if (findRow table r.skill_code).isSome then
    table.map (fun x => if x.skill_code == r.skill_code then r else x)
  else table ++ [r]

/-- `Database.update_user_skills` for one learner: fold the per-code update
over the supplied codes. -/
def update_user_skills (table : List SkillRecord) (skill_codes : List String)
    (is_correct : Bool) (weight time_sec : ℚ) (today : String) :
    List SkillRecord :=
  skill_codes.foldl
    (fun t code =>
      upsertRow t (update_user_skill_row (findRow t code) code is_correct
        weight time_sec today))
    table

/-- `Database.can_access_tier4`: tier 4 is unlocked only when every required
skill has a row with `mastery_level ≥ 2`; an empty requirement list and any
untracked skill (fewer matching rows than codes) lock it. -/
def can_access_tier4 (table : List SkillRecord) (skill_codes : List String) :
    Bool :=
  if skill_codes.isEmpty then false
  else
    let rows := table.filter (fun r => skill_codes.contains r.skill_code)
    if rows.length < skill_codes.length then false
    else rows.all (fun r => r.mastery_level ≥ 2)

/-- The `_priority` closure of `select_adaptive_exercises`: prefer weak skills,
penalise difficulty mismatched against the learner's level. -/
def exercisePriority (table : List SkillRecord) (ex : Exercise) : ℚ :=
  let codes := ex.skill_codes
  if codes.isEmpty then 0.5
  else
    let ex_diff : Nat := if ex.dificultate ≠ 0 then ex.dificultate else 1
    let masteries := codes.map (fun c =>
      match findRow table c with
      | some r => r.mastery
      | none => 0.5)
    let avg_mastery := masteries.sum / (codes.length : ℚ)
    let avg_level := (codes.map (fun c =>
      match findRow table c with
      | some r => (r.mastery_level : ℚ)
      | none => 0)).sum / (codes.length : ℚ)
    let weakness_score := 1.0 - avg_mastery
    let target_diff : ℚ := min 3 ((⌊avg_level⌋ : ℚ) + 1)
    let diff_penalty := |(ex_diff : ℚ) - target_diff| * 0.25
    let match_score := max 0.0 (1.0 - diff_penalty)
    weakness_score * match_score

/-- `Database.select_adaptive_exercises` for one learner: `pool` is the
practice candidate pool read from the `exercises` table, `due_ids` the
spaced-repetition identifiers currently due.  Tier-4 exercises are filtered
out when `can_access_tier4` fails on the pool's referenced skill codes; the
rest are stably sorted by descending priority, due exercises first. -/
def select_adaptive_exercises (table : List SkillRecord)
    (pool : List Exercise) (due_ids : List Nat) (n : Nat) : List Exercise :=
  if pool.isEmpty then []
  else
    let all_skill_codes := ((pool.map (fun e => e.skill_codes)).flatten).dedup
    let tier4_ok := can_access_tier4 table all_skill_codes
    let pool' := if tier4_ok then pool
      else pool.filter (fun e => effTier e < 4)
    let scored := pool'.mergeSort (fun a b =>
      decide (exercisePriority table b ≤ exercisePriority table a))
    let due := scored.filter (fun e => due_ids.contains e.id)
    let rest := scored.filter (fun e => !due_ids.contains e.id)
    (due ++ rest).take n

/-! ### Concrete fixtures used by witnesses and counterexamples -/

/-- A concrete environment: no misconception hit, identity sanitiser, theory
chunks, no micro quizzes. -/
def envFix : Env where
  misFeedback := fun _ _ _ _ => none
  getMessage := fun k => "MSG:" ++ k
  sanitize := fun t => t
  classifyChunk := fun _ => "theory"
  microQuiz := fun _ => none

def exFix1 : Exercise :=
  { id := 1, enunt := "Cât face 1+1?", raspuns := "2", explicatie := "expl1",
    skill_codes := [], dificultate := 1, difficulty_tier := 0 }

def exFix2 : Exercise :=
  { id := 2, enunt := "Cât face 2+2?", raspuns := "4", explicatie := "expl2",
    skill_codes := ["MAT4.ADD"], dificultate := 2, difficulty_tier := 0 }

def lesFix : Lesson :=
  { id := 7, title := "Adunarea", subject := "Matematică", grade := 4,
    theory := "", summary := "sum" }

/-- A mid-practice session fixture. -/
def sesFix : LessonSession :=
  { mkLessonSession 42 lesFix with
      state := LessonState.PRACTICE,
      practice_exercises := [exFix1, exFix2, exFix1, exFix2, exFix1, exFix2, exFix1],
      theory_chunks := ["primul fragment de teorie", "al doilea fragment de teorie"],
      session_id := 9 }

/-- The list of states recorded in an effect trace, in emission order. -/
def stateChanges (fx : List Effect) : List LessonState :=
  fx.filterMap (fun e =>
    match e with
    | Effect.stateChange st => some st
    | _ => none)

/-! ### Helper lemmas about the state machine -/

theorem stateChanges_append (a b : List Effect) :
    stateChanges (a ++ b) = stateChanges a ++ stateChanges b := by
  simp [stateChanges]

/-- When an exercise is available, `_show_current_exercise` only emits the
show-exercise callback and leaves the session untouched. -/
theorem show_exercise_of_lt (env : Env) (fuel : Nat) (s : LessonSession)
    (h : s.current_exercise_idx < (_get_current_exercises s).length) :
    _show_current_exercise env (fuel + 1) s =
      (s, [Effect.showExercise
        ((_get_current_exercises s).get ⟨s.current_exercise_idx, h⟩)
        (s.current_exercise_idx + 1) (_get_current_exercises s).length]) := by
  rw [_show_current_exercise]
  simp [h]

/-- `_show_current_exercise` never changes the session state while an exercise
is available. -/
theorem show_exercise_state_stable (env : Env) (fuel : Nat) (s : LessonSession)
    (h : s.current_exercise_idx < (_get_current_exercises s).length) :
    ((_show_current_exercise env fuel s).1).state = s.state := by
  cases fuel with
  | zero => rfl
  | succ f => rw [show_exercise_of_lt env f s h]

/-! ### Claims about `LessonEngine.start` -/

/-- C1.  `start` with a missing lesson returns `none` (logs and returns: no
session is created and nothing is raised); with an existing lesson it enters
`WARMUP` when spaced-repetition due items exist, else `PRE_TEST` when pretest
exercises exist, else it begins theory directly, passing through
`LESSON_INTRO` and then `LESSON_CHUNK`. -/
theorem claim_C1_start_dispatch (env : Env) (fuel user_id : Nat)
    (lesson : Lesson) (pretest practice posttest srs_due : List Exercise)
    (session_id : Nat) (hfuel : 1 ≤ fuel) :
    (start env fuel user_id none pretest practice posttest srs_due session_id
        = none) ∧
    (srs_due ≠ [] →
      ∃ s fx, start env fuel user_id (some lesson) pretest practice posttest
          srs_due session_id = some (s, fx) ∧
        s.state = LessonState.WARMUP ∧
        (stateChanges fx).head? = some LessonState.WARMUP) ∧
    (srs_due = [] → pretest ≠ [] →
      ∃ s fx, start env fuel user_id (some lesson) pretest practice posttest
          srs_due session_id = some (s, fx) ∧
        s.state = LessonState.PRE_TEST ∧
        (stateChanges fx).head? = some LessonState.PRE_TEST) ∧
    (srs_due = [] → pretest = [] →
      ∃ s fx, start env fuel user_id (some lesson) pretest practice posttest
          srs_due session_id = some (s, fx) ∧
        LessonState.LESSON_INTRO :: [LessonState.LESSON_CHUNK] <+:
          stateChanges fx) := by
  refine ⟨rfl, ?_, ?_, ?_⟩
  · rcases srs_due with _ | ⟨e, es⟩
    · intro hsrs; exact absurd rfl hsrs
    intro _
    rw [start]
    simp only [List.isEmpty_cons, Bool.not_false, if_true]
    refine ⟨_, _, rfl, ?_, ?_⟩
    · rw [_start_warmup]
      have h : (0 : Nat) < (e :: es).length := by simp
      exact show_exercise_state_stable env fuel _ h
    · simp [_transition_to, stateChanges_append, stateChanges]
  · rintro rfl hpre
    rcases pretest with _ | ⟨p, ps⟩
    · exact absurd rfl hpre
    rw [start]
    simp only [List.isEmpty_nil, Bool.not_true, Bool.false_eq_true, if_false,
      List.isEmpty_cons, Bool.not_false, if_true]
    refine ⟨_, _, rfl, ?_, ?_⟩
    · cases fuel with
      | zero => rfl
      | succ f =>
        rw [_start_pretest]
        have h : (0 : Nat) < (p :: ps).length := by simp
        have := show_exercise_state_stable env f
          ({ (_transition_to (startSession user_id lesson (p :: ps) practice
              posttest [] [] session_id) LessonState.PRE_TEST).1 with
                current_exercise_idx := 0, current_hints_used := 0 }) h
        simpa using this
    · simp [_transition_to, stateChanges_append, stateChanges]
  · rintro rfl rfl
    obtain ⟨f, rfl⟩ : ∃ f, fuel = f + 1 := ⟨fuel - 1, by omega⟩
    rw [start]
    simp only [List.isEmpty_nil, Bool.not_true, Bool.false_eq_true, if_false]
    refine ⟨_, _, rfl, ?_⟩
    simp [_transition_to, stateChanges_append, stateChanges,
      List.cons_prefix_cons, List.nil_prefix]

/-- Witness for C1: concrete calls exercising the missing-lesson case and the
warm-up case. -/
theorem claim_C1_start_dispatch_witness :
    (start envFix 20 42 none [exFix1] [] [] [] 9 = none) ∧
    (∃ s fx, start envFix 20 42 (some lesFix) [] [] [] [exFix2] 9
        = some (s, fx) ∧
      s.state = LessonState.WARMUP ∧
      (stateChanges fx).head? = some LessonState.WARMUP) := by
  refine ⟨(claim_C1_start_dispatch envFix 20 42 lesFix [exFix1] [] [] [] 9
    (by norm_num)).1, ?_⟩
  exact (claim_C1_start_dispatch envFix 20 42 lesFix [] [] [] [exFix2] 9
    (by norm_num)).2.1 (by simp)

/-! ### Claims about answer grading (`_answer_exercise`, `_normalize_answer`) -/

/-- The `QuestionResult` produced by `answerCore` records the grading verdict
of `gradeAnswer` on the stripped expected and submitted answers. -/
theorem answerCore_is_correct (env : Env) (s : LessonSession) (ex : Exercise)
    (answer : String) (meta : AnswerMeta) :
    (answerCore env s ex answer meta).2.1.is_correct
      = gradeAnswer (pyStripS ex.raspuns) (pyStripS answer) := by
  unfold answerCore
  dsimp only

/-- `answerCore` always emits the `exerciseResult` callback for the produced
`QuestionResult`. -/
theorem answerCore_result_mem (env : Env) (s : LessonSession) (ex : Exercise)
    (answer : String) (meta : AnswerMeta) :
    Effect.exerciseResult (answerCore env s ex answer meta).2.1
      ∈ (answerCore env s ex answer meta).2.2 := by
  unfold answerCore
  simp [List.mem_append]

/-- `_answer_exercise` with a valid exercise index always answers, and every
effect of the straight-line core survives into the emitted effect list. -/
theorem _answer_exercise_some (env : Env) (fuel : Nat) (s : LessonSession)
    (answer : String) (meta : AnswerMeta)
    (h : s.current_exercise_idx < (_get_current_exercises s).length) :
    ∃ s' fx, _answer_exercise env fuel s answer meta = some (s', fx) ∧
      ∀ e ∈ (answerCore env s
          ((_get_current_exercises s).get ⟨s.current_exercise_idx, h⟩)
          answer meta).2.2, e ∈ fx := by
  unfold _answer_exercise
  dsimp only
  rw [dif_pos h]
  split
  · exact ⟨_, _, rfl, fun e he => List.mem_append_left _ he⟩
  · exact ⟨_, _, rfl, fun e he => he⟩

/-- The grading rule, unfolded: normalized equality, or membership among the
normalized `sau`-alternates when the expected answer contains `sau`. -/
theorem gradeAnswer_iff (correct user : String) :
    gradeAnswer correct user = true ↔
      (_normalize_answer user = _normalize_answer correct ∨
        (sauSearch correct = true ∧
          _normalize_answer user ∈ (sauSplit correct).map _normalize_answer)) := by
  unfold gradeAnswer
  by_cases h : _normalize_answer user = _normalize_answer correct
  · simp [h]
  · by_cases hs : sauSearch correct
    · simp only [beq_iff_eq, h, hs]
      simp [List.contains_iff_exists_mem_beq, beq_iff_eq, h]
    · simp [hs, h]

set_option maxHeartbeats 2000000 in
/-- C2.  An answer submitted in `PRE_TEST`, `PRACTICE` or `POST_TEST` is
counted correct iff, after normalization of both the stripped learner answer
and the stripped expected answer, they are equal, or the expected answer
contains `sau`-separated alternates and the normalized learner answer equals
one of them; in particular expected "290000" with submitted "290.000" and
expected "32 sau 60" with submitted "60" are counted correct. -/
theorem claim_C2_answer_normalization (env : Env) (fuel : Nat)
    (s : LessonSession) (answer : String) (meta : AnswerMeta) (ex : Exercise)
    (hst : s.state = LessonState.PRE_TEST ∨ s.state = LessonState.PRACTICE ∨
      s.state = LessonState.POST_TEST)
    (hex : (_get_current_exercises s).get? s.current_exercise_idx = some ex) :
    (∃ s' fx, submit_answer env fuel s answer meta = some (s', fx) ∧
      ∃ qr, Effect.exerciseResult qr ∈ fx ∧
        (qr.is_correct = true ↔
          (_normalize_answer (pyStripS answer)
              = _normalize_answer (pyStripS ex.raspuns) ∨
            (sauSearch (pyStripS ex.raspuns) = true ∧
              _normalize_answer (pyStripS answer) ∈
                (sauSplit (pyStripS ex.raspuns)).map _normalize_answer)))) ∧
    gradeAnswer "290000" "290.000" = true ∧
    gradeAnswer "32 sau 60" "60" = true := by
  refine ⟨?_, by decide, by decide⟩
  obtain ⟨hlt, hget⟩ := List.get?_eq_some.mp hex
  have hdisp : submit_answer env fuel s answer meta
      = _answer_exercise env fuel s answer meta := by
    unfold submit_answer
    rcases hst with h | h | h <;> simp [h]
  obtain ⟨s', fx, heq, hsub⟩ :=
    _answer_exercise_some env fuel s answer meta hlt
  refine ⟨s', fx, hdisp.trans heq, _, hsub _ (answerCore_result_mem _ _ _ _ _), ?_⟩
  rw [answerCore_is_correct, hget]
  exact gradeAnswer_iff (pyStripS ex.raspuns) (pyStripS answer)

/-- Witness for C2: the practice fixture, answering exercise `exFix1`. -/
theorem claim_C2_answer_normalization_witness :
    (∃ s' fx, submit_answer envFix 20 sesFix "3" ⟨0, 0⟩ = some (s', fx) ∧
      ∃ qr, Effect.exerciseResult qr ∈ fx ∧
        (qr.is_correct = true ↔
          (_normalize_answer (pyStripS "3")
              = _normalize_answer (pyStripS exFix1.raspuns) ∨
            (sauSearch (pyStripS exFix1.raspuns) = true ∧
              _normalize_answer (pyStripS "3") ∈
                (sauSplit (pyStripS exFix1.raspuns)).map _normalize_answer)))) ∧
    gradeAnswer "290000" "290.000" = true ∧
    gradeAnswer "32 sau 60" "60" = true :=
  claim_C2_answer_normalization envFix 20 sesFix "3" ⟨0, 0⟩ exFix1
    (Or.inr (Or.inl rfl)) rfl

/-! ### Claim C3: behaviour on the third consecutive wrong answer -/

/-- C3 (failing input).  A practice session with two consecutive wrong answers
already recorded receives a third wrong answer on exercise index 0.  The code
increments `current_exercise_idx` to 1 before `_trigger_alt_explanation`, so
the exercise that triggered the re-explanation is skipped — both in the
round-robin alternate-chunk path (which does present the next chunk and
return to `LESSON_CHUNK`) and in the single-chunk recap path (which speaks the
recap and then immediately shows the next exercise, index 1). -/
theorem claim_C3_third_wrong_skips_exercise :
    ((submit_answer envFix 20 { sesFix with consecutive_wrong := 2 } "999"
        ⟨0, 0⟩).map (fun p =>
          (p.1.current_exercise_idx, p.1.state, p.1.current_chunk_idx,
            p.1.consecutive_wrong))
      = some (1, LessonState.LESSON_CHUNK, 1, 0)) ∧
    ((submit_answer envFix 20
        { sesFix with
            consecutive_wrong := 2,
            theory_chunks := ["un singur fragment de teorie"] } "999"
        ⟨0, 0⟩).map (fun p =>
          (p.1.current_exercise_idx, p.1.current_chunk_idx,
            p.2.contains (Effect.showExercise exFix2 2 7)))
      = some (1, 0, true)) := by
  constructor
  · decide
  · decide

/-- Fold a list of answers through `_answer_exercise` (fixed empty metadata),
as a learner answering one exercise after another. -/
def runAnswers (env : Env) (fuel : Nat) : LessonSession → List String →
    LessonSession
  | s, [] => s
  | s, a :: rest =>
    match _answer_exercise env fuel s a ⟨0, 0⟩ with
    | some p => runAnswers env fuel p.1 rest
    | none => s

/-! ### Preservation lemmas for the phase cascade, and claim C4 -/

/-- The session fields that the phase-completion cascade never writes: the
difficulty-adjustment counters, the wrong streak and the three result lists. -/
def coreView (s : LessonSession) :
    Nat × Nat × Nat × Nat × List QuestionResult × List QuestionResult ×
      List QuestionResult :=
  (s.current_tier, s.tier_up_streak, s.tier_down_count, s.consecutive_wrong,
   s.pretest_results, s.practice_results, s.posttest_results)

theorem coreView_finish (env : Env) (s : LessonSession) :
    coreView (_finish_session env s).1 = coreView s := rfl

theorem coreView_complete_post (env : Env) (fuel : Nat) (s : LessonSession)
    (h : s.state = LessonState.POST_TEST) :
    coreView (_complete_phase env fuel s).1 = coreView s := by
  cases fuel with
  | zero => rfl
  | succ f =>
    rw [_complete_phase, if_neg (by simp [h]), if_neg (by simp [h]),
      if_neg (by simp [h]), if_pos h]
    exact coreView_finish env s

theorem coreView_show_post (env : Env) (fuel : Nat) (s : LessonSession)
    (h : s.state = LessonState.POST_TEST) :
    coreView (_show_current_exercise env fuel s).1 = coreView s := by
  cases fuel with
  | zero => rfl
  | succ f =>
    rw [_show_current_exercise]
    split
    · rfl
    · exact coreView_complete_post env f s h

theorem coreView_start_posttest (env : Env) (fuel : Nat) (s : LessonSession) :
    coreView (_start_posttest env fuel s).1 = coreView s := by
  cases fuel with
  | zero => rfl
  | succ f =>
    rw [_start_posttest]
    dsimp only [_transition_to]
    split
    · exact coreView_show_post env f _ rfl
    · exact coreView_show_post env f _ rfl

theorem coreView_complete_practice (env : Env) (fuel : Nat) (s : LessonSession)
    (h : s.state = LessonState.PRACTICE) :
    coreView (_complete_phase env fuel s).1 = coreView s := by
  cases fuel with
  | zero => rfl
  | succ f =>
    rw [_complete_phase, if_neg (by simp [h]), if_neg (by simp [h]), if_pos h]
    exact coreView_start_posttest env f s

theorem coreView_show_practice (env : Env) (fuel : Nat) (s : LessonSession)
    (h : s.state = LessonState.PRACTICE) :
    coreView (_show_current_exercise env fuel s).1 = coreView s := by
  cases fuel with
  | zero => rfl
  | succ f =>
    rw [_show_current_exercise]
    split
    · rfl
    · exact coreView_complete_practice env f s h

theorem coreView_start_practice (env : Env) (fuel : Nat) (s : LessonSession) :
    coreView (_start_practice env fuel s).1 = coreView s := by
  cases fuel with
  | zero => rfl
  | succ f =>
    rw [_start_practice]
    dsimp only [_transition_to]
    exact coreView_show_practice env f _ rfl

theorem coreView_show_chunk (env : Env) (fuel : Nat) (s : LessonSession) :
    coreView (_show_current_chunk env fuel s).1 = coreView s := by
  cases fuel with
  | zero => rfl
  | succ f =>
    rw [_show_current_chunk]
    split
    · exact coreView_start_practice env f s
    · dsimp only
      split
      · dsimp only [_transition_to]
        split
        · rfl
        · rfl
      · exact coreView_start_practice env f s

theorem coreView_start_intro (env : Env) (fuel : Nat) (s : LessonSession) :
    coreView (_start_intro env fuel s).1 = coreView s := by
  cases fuel with
  | zero => rfl
  | succ f =>
    rw [_start_intro]
    dsimp only [_transition_to]
    exact coreView_show_chunk env f _

theorem coreView_complete_pretest (env : Env) (fuel : Nat) (s : LessonSession)
    (h : s.state = LessonState.PRE_TEST) :
    coreView (_complete_phase env fuel s).1 = coreView s := by
  cases fuel with
  | zero => rfl
  | succ f =>
    rw [_complete_phase, if_neg (by simp [h]), if_pos h]
    dsimp only
    split
    · exact coreView_show_chunk env f _
    · exact coreView_start_intro env f s

theorem coreView_show_pretest (env : Env) (fuel : Nat) (s : LessonSession)
    (h : s.state = LessonState.PRE_TEST) :
    coreView (_show_current_exercise env fuel s).1 = coreView s := by
  cases fuel with
  | zero => rfl
  | succ f =>
    rw [_show_current_exercise]
    split
    · rfl
    · exact coreView_complete_pretest env f s h

theorem coreView_trigger (env : Env) (fuel : Nat) (s : LessonSession)
    (h : s.state = LessonState.PRE_TEST ∨ s.state = LessonState.PRACTICE ∨
      s.state = LessonState.POST_TEST) :
    coreView (_trigger_alt_explanation env fuel s).1 = coreView s := by
  have hshow : coreView (_show_current_exercise env fuel s).1 = coreView s := by
    rcases h with h | h | h
    · exact coreView_show_pretest env fuel s h
    · exact coreView_show_practice env fuel s h
    · exact coreView_show_post env fuel s h
  unfold _trigger_alt_explanation
  dsimp only
  split
  · exact hshow
  · split
    · exact hshow
    · rfl


def tiersView (s : LessonSession) : Nat × Nat × Nat :=
  (s.current_tier, s.tier_up_streak, s.tier_down_count)

def resultsView (s : LessonSession) :
    List QuestionResult × List QuestionResult × List QuestionResult :=
  (s.pretest_results, s.practice_results, s.posttest_results)

theorem coreView_proj {a b : LessonSession} (h : coreView a = coreView b) :
    tiersView a = tiersView b ∧ resultsView a = resultsView b := by
  simp only [coreView, Prod.mk.injEq] at h
  simp [tiersView, resultsView, h.1, h.2.1, h.2.2.1, h.2.2.2.2.1,
    h.2.2.2.2.2.1, h.2.2.2.2.2.2]

theorem answerCore_session (env : Env) (s : LessonSession) (ex : Exercise)
    (answer : String) (meta : AnswerMeta) :
    (answerCore env s ex answer meta).1 =
      storeResult
        (ddaPhase (feedbackPhase env (updateAverages s meta.time_sec meta.edits)
          ex (pyStripS ex.raspuns) (pyStripS answer)
          (gradeAnswer (pyStripS ex.raspuns) (pyStripS answer))).1).1
        (answerCore env s ex answer meta).2.1 := by
  unfold answerCore
  dsimp only

theorem storeResult_tiers (s : LessonSession) (qr : QuestionResult) :
    tiersView (storeResult s qr) = tiersView s := by
  unfold storeResult
  split
  · rfl
  · split
    · rfl
    · split
      · rfl
      · rfl

theorem updateAverages_state (s : LessonSession) (t e : ℚ) :
    (updateAverages s t e).state = s.state := rfl

theorem feedbackPhase_state (env : Env) (s : LessonSession) (ex : Exercise)
    (c u : String) (g : Bool) :
    (feedbackPhase env s ex c u g).1.state = s.state := by
  cases g <;> rfl

theorem ddaPhase_state (s : LessonSession) :
    (ddaPhase s).1.state = s.state := by
  unfold ddaPhase
  split
  · rfl
  · split
    · rfl
    · rfl

theorem storeResult_state (s : LessonSession) (qr : QuestionResult) :
    (storeResult s qr).state = s.state := by
  unfold storeResult
  split
  · rfl
  · split
    · rfl
    · split
      · rfl
      · rfl

theorem answerCore_state (env : Env) (s : LessonSession) (ex : Exercise)
    (answer : String) (meta : AnswerMeta) :
    (answerCore env s ex answer meta).1.state = s.state := by
  rw [answerCore_session, storeResult_state, ddaPhase_state,
    feedbackPhase_state, updateAverages_state]

theorem feedbackPhase_correct (env : Env) (s : LessonSession) (ex : Exercise)
    (c u : String) :
    (feedbackPhase env s ex c u true).1 =
      { s with correct_streak := s.correct_streak + 1,
               consecutive_wrong := 0,
               tier_up_streak := s.tier_up_streak + 1,
               tier_down_count := 0 } := rfl

theorem feedbackPhase_wrong (env : Env) (s : LessonSession) (ex : Exercise)
    (c u : String) :
    (feedbackPhase env s ex c u false).1 =
      { s with correct_streak := 0,
               consecutive_wrong := s.consecutive_wrong + 1,
               tier_up_streak := 0,
               tier_down_count := s.tier_down_count + 1 } := rfl

theorem ddaPhase_bounds (s : LessonSession)
    (h : 1 ≤ s.current_tier ∧ s.current_tier ≤ 3) :
    1 ≤ (ddaPhase s).1.current_tier ∧ (ddaPhase s).1.current_tier ≤ 3 := by
  unfold ddaPhase
  split
  · dsimp only; omega
  · split
    · dsimp only; omega
    · exact h

theorem trigger_reset_fields (env : Env) (fuel : Nat) (x : LessonSession)
    (hx : x.state = LessonState.PRE_TEST ∨ x.state = LessonState.PRACTICE ∨
      x.state = LessonState.POST_TEST) :
    tiersView (_trigger_alt_explanation env fuel
        { x with consecutive_wrong := 0, current_hints_used := 0,
                 current_exercise_idx := x.current_exercise_idx + 1 }).1
      = tiersView x ∧
    resultsView (_trigger_alt_explanation env fuel
        { x with consecutive_wrong := 0, current_hints_used := 0,
                 current_exercise_idx := x.current_exercise_idx + 1 }).1
      = resultsView x := by
  have hc := coreView_trigger env fuel
    { x with consecutive_wrong := 0, current_hints_used := 0,
             current_exercise_idx := x.current_exercise_idx + 1 } hx
  obtain ⟨h1, h2⟩ := coreView_proj hc
  exact ⟨h1.trans rfl, h2.trans rfl⟩

/-- Dispatcher: with a valid exercise index and an answer-accepting state, the
answer step succeeds and the final session carries the tier counters and
result lists computed by the straight-line core (the three-wrong re-explanation
path resets other fields but not these). -/
theorem _answer_exercise_fields (env : Env) (fuel : Nat) (s : LessonSession)
    (answer : String) (meta : AnswerMeta)
    (hst : s.state = LessonState.PRE_TEST ∨ s.state = LessonState.PRACTICE ∨
      s.state = LessonState.POST_TEST)
    (h : s.current_exercise_idx < (_get_current_exercises s).length) :
    ∃ s' fx, _answer_exercise env fuel s answer meta = some (s', fx) ∧
      tiersView s' = tiersView (answerCore env s
        ((_get_current_exercises s).get ⟨s.current_exercise_idx, h⟩)
        answer meta).1 ∧
      resultsView s' = resultsView (answerCore env s
        ((_get_current_exercises s).get ⟨s.current_exercise_idx, h⟩)
        answer meta).1 ∧
      (∀ e ∈ (answerCore env s
        ((_get_current_exercises s).get ⟨s.current_exercise_idx, h⟩)
        answer meta).2.2, e ∈ fx) := by
  have hx : (answerCore env s
      ((_get_current_exercises s).get ⟨s.current_exercise_idx, h⟩)
      answer meta).1.state = LessonState.PRE_TEST ∨
    (answerCore env s
      ((_get_current_exercises s).get ⟨s.current_exercise_idx, h⟩)
      answer meta).1.state = LessonState.PRACTICE ∨
    (answerCore env s
      ((_get_current_exercises s).get ⟨s.current_exercise_idx, h⟩)
      answer meta).1.state = LessonState.POST_TEST := by
    rw [answerCore_state]
    exact hst
  unfold _answer_exercise
  dsimp only
  rw [dif_pos h]
  generalize hcore : answerCore env s
    ((_get_current_exercises s).get ⟨s.current_exercise_idx, h⟩) answer meta
    = core at hx ⊢
  split
  · exact ⟨_, _, rfl, (trigger_reset_fields env fuel _ hx).1,
      (trigger_reset_fields env fuel _ hx).2,
      fun e he => List.mem_append_left _ he⟩
  · exact ⟨_, _, rfl, rfl, rfl, fun e he => he⟩


theorem ddaPhase_up (s : LessonSession) (h1 : s.tier_up_streak ≥ 3)
    (h2 : s.current_tier < 3) :
    (ddaPhase s).1 = { s with current_tier := min 3 (s.current_tier + 1),
                              tier_up_streak := 0 } := by
  unfold ddaPhase
  rw [if_pos ⟨h1, h2⟩]

theorem ddaPhase_down (s : LessonSession)
    (h0 : ¬(s.tier_up_streak ≥ 3 ∧ s.current_tier < 3))
    (h1 : s.tier_down_count ≥ 2) (h2 : s.current_tier > 1) :
    (ddaPhase s).1 = { s with current_tier := max 1 (s.current_tier - 1),
                              tier_down_count := 0 } := by
  unfold ddaPhase
  rw [if_neg h0, if_pos ⟨h1, h2⟩]

theorem ddaPhase_none (s : LessonSession)
    (h0 : ¬(s.tier_up_streak ≥ 3 ∧ s.current_tier < 3))
    (h1 : ¬(s.tier_down_count ≥ 2 ∧ s.current_tier > 1)) :
    (ddaPhase s).1 = s := by
  unfold ddaPhase
  rw [if_neg h0, if_neg h1]

theorem feedbackPhase_tier (env : Env) (s : LessonSession) (ex : Exercise)
    (c u : String) (g : Bool) :
    (feedbackPhase env s ex c u g).1.current_tier = s.current_tier := by
  cases g <;> rfl

/-- C4 (amended).  For any answer submitted in an exercise state: a third
consecutive correct answer raises the tier by exactly one and resets the
tier-up counter to 0 whenever the tier is below 3, but at tier 3 it leaves
both the tier and the (unreset) counter unchanged; a second consecutive
incorrect answer lowers the tier by exactly one and resets the tier-down
counter whenever the tier is above 1, but at tier 1 it leaves the tier and the
(unreset) counter unchanged; the tier never leaves the range 1..3 through this
streak mechanism (and it starts at 2, see `claim_C4_dda_streaks_witness`). -/
theorem claim_C4_dda_streaks (env : Env) (fuel : Nat) (s : LessonSession)
    (answer : String) (meta : AnswerMeta) (ex : Exercise)
    (hst : s.state = LessonState.PRE_TEST ∨ s.state = LessonState.PRACTICE ∨
      s.state = LessonState.POST_TEST)
    (hex : (_get_current_exercises s).get? s.current_exercise_idx = some ex) :
    ∃ s' fx, submit_answer env fuel s answer meta = some (s', fx) ∧
      ((gradeAnswer (pyStripS ex.raspuns) (pyStripS answer) = true →
          s.tier_up_streak = 2 → s.current_tier < 3 →
          s'.current_tier = s.current_tier + 1 ∧ s'.tier_up_streak = 0) ∧
       (gradeAnswer (pyStripS ex.raspuns) (pyStripS answer) = true →
          s.tier_up_streak = 2 → s.current_tier = 3 →
          s'.current_tier = 3 ∧ s'.tier_up_streak = 3) ∧
       (gradeAnswer (pyStripS ex.raspuns) (pyStripS answer) = false →
          s.tier_down_count = 1 → 1 < s.current_tier →
          s'.current_tier = s.current_tier - 1 ∧ s'.tier_down_count = 0) ∧
       (gradeAnswer (pyStripS ex.raspuns) (pyStripS answer) = false →
          s.tier_down_count = 1 → s.current_tier = 1 →
          s'.current_tier = 1 ∧ s'.tier_down_count = 2) ∧
       (1 ≤ s.current_tier → s.current_tier ≤ 3 →
          1 ≤ s'.current_tier ∧ s'.current_tier ≤ 3)) := by
  obtain ⟨hlt, hget⟩ := List.get?_eq_some.mp hex
  have hdisp : submit_answer env fuel s answer meta
      = _answer_exercise env fuel s answer meta := by
    unfold submit_answer
    rcases hst with h | h | h <;> simp [h]
  obtain ⟨s', fx, heq, htier, hres, hmem⟩ :=
    _answer_exercise_fields env fuel s answer meta hst hlt
  rw [hget] at htier
  rw [answerCore_session env s ex answer meta] at htier
  rw [storeResult_tiers] at htier
  refine ⟨s', fx, hdisp.trans heq, ?_, ?_, ?_, ?_, ?_⟩
  · intro hg hup htlt
    rw [hg, feedbackPhase_correct] at htier
    rw [ddaPhase_up _ (by show _ + 1 ≥ 3; rw [show (updateAverages s meta.time_sec meta.edits).tier_up_streak = s.tier_up_streak from rfl, hup]) (by show _ < 3; exact htlt)] at htier
    simp only [tiersView, Prod.mk.injEq] at htier
    refine ⟨?_, htier.2.1⟩
    rw [htier.1]
    show min 3 ((updateAverages s meta.time_sec meta.edits).current_tier + 1) = _
    rw [show (updateAverages s meta.time_sec meta.edits).current_tier = s.current_tier from rfl]
    omega
  · intro hg hup hteq
    rw [hg, feedbackPhase_correct] at htier
    rw [ddaPhase_none _ (by
        show ¬(_ ∧ _)
        rintro ⟨-, hlt3⟩
        rw [show ({ updateAverages s meta.time_sec meta.edits with
          correct_streak := (updateAverages s meta.time_sec meta.edits).correct_streak + 1,
          consecutive_wrong := 0,
          tier_up_streak := (updateAverages s meta.time_sec meta.edits).tier_up_streak + 1,
          tier_down_count := 0 } : LessonSession).current_tier = s.current_tier from rfl, hteq] at hlt3
        omega)
      (by
        rintro ⟨hd2, -⟩
        rw [show ({ updateAverages s meta.time_sec meta.edits with
          correct_streak := (updateAverages s meta.time_sec meta.edits).correct_streak + 1,
          consecutive_wrong := 0,
          tier_up_streak := (updateAverages s meta.time_sec meta.edits).tier_up_streak + 1,
          tier_down_count := 0 } : LessonSession).tier_down_count = 0 from rfl] at hd2
        omega)] at htier
    simp only [tiersView, Prod.mk.injEq] at htier
    refine ⟨?_, ?_⟩
    · rw [htier.1]
      show (updateAverages s meta.time_sec meta.edits).current_tier = 3
      rw [show (updateAverages s meta.time_sec meta.edits).current_tier = s.current_tier from rfl]
      exact hteq
    · rw [htier.2.1]
      show (updateAverages s meta.time_sec meta.edits).tier_up_streak + 1 = 3
      rw [show (updateAverages s meta.time_sec meta.edits).tier_up_streak = s.tier_up_streak from rfl, hup]
  · intro hg hdown htgt
    rw [hg, feedbackPhase_wrong] at htier
    rw [ddaPhase_down _ (by rintro ⟨hu3, -⟩; rw [show ({ updateAverages s meta.time_sec meta.edits with
          correct_streak := 0,
          consecutive_wrong := (updateAverages s meta.time_sec meta.edits).consecutive_wrong + 1,
          tier_up_streak := 0,
          tier_down_count := (updateAverages s meta.time_sec meta.edits).tier_down_count + 1 } : LessonSession).tier_up_streak = 0 from rfl] at hu3; omega)
      (by show _ + 1 ≥ 2; rw [show (updateAverages s meta.time_sec meta.edits).tier_down_count = s.tier_down_count from rfl, hdown])
      (by show _ > 1; exact htgt)] at htier
    simp only [tiersView, Prod.mk.injEq] at htier
    refine ⟨?_, htier.2.2⟩
    rw [htier.1]
    show max 1 ((updateAverages s meta.time_sec meta.edits).current_tier - 1) = _
    rw [show (updateAverages s meta.time_sec meta.edits).current_tier = s.current_tier from rfl]
    omega
  · intro hg hdown hteq
    rw [hg, feedbackPhase_wrong] at htier
    rw [ddaPhase_none _ (by rintro ⟨hu3, -⟩; rw [show ({ updateAverages s meta.time_sec meta.edits with
          correct_streak := 0,
          consecutive_wrong := (updateAverages s meta.time_sec meta.edits).consecutive_wrong + 1,
          tier_up_streak := 0,
          tier_down_count := (updateAverages s meta.time_sec meta.edits).tier_down_count + 1 } : LessonSession).tier_up_streak = 0 from rfl] at hu3; omega)
      (by rintro ⟨-, ht1⟩; rw [show ({ updateAverages s meta.time_sec meta.edits with
          correct_streak := 0,
          consecutive_wrong := (updateAverages s meta.time_sec meta.edits).consecutive_wrong + 1,
          tier_up_streak := 0,
          tier_down_count := (updateAverages s meta.time_sec meta.edits).tier_down_count + 1 } : LessonSession).current_tier = s.current_tier from rfl, hteq] at ht1; omega)] at htier
    simp only [tiersView, Prod.mk.injEq] at htier
    refine ⟨?_, ?_⟩
    · rw [htier.1]
      show (updateAverages s meta.time_sec meta.edits).current_tier = 1
      rw [show (updateAverages s meta.time_sec meta.edits).current_tier = s.current_tier from rfl]
      exact hteq
    · rw [htier.2.2]
      show (updateAverages s meta.time_sec meta.edits).tier_down_count + 1 = 2
      rw [show (updateAverages s meta.time_sec meta.edits).tier_down_count = s.tier_down_count from rfl, hdown]
  · intro hb1 hb3
    have hFtier : (feedbackPhase env (updateAverages s meta.time_sec meta.edits)
        ex (pyStripS ex.raspuns) (pyStripS answer)
        (gradeAnswer (pyStripS ex.raspuns) (pyStripS answer))).1.current_tier
        = s.current_tier := by
      rw [feedbackPhase_tier]
      rfl
    have hbounds := ddaPhase_bounds
      (feedbackPhase env (updateAverages s meta.time_sec meta.edits)
        ex (pyStripS ex.raspuns) (pyStripS answer)
        (gradeAnswer (pyStripS ex.raspuns) (pyStripS answer))).1
      (by rw [hFtier]; exact ⟨hb1, hb3⟩)
    simp only [tiersView, Prod.mk.injEq] at htier
    rw [htier.1]
    exact hbounds



/-- C4 (counterexample to the unamended claim).  Six consecutive correct
answers from a fresh tier-2 practice session: the sixth answer is the third
consecutive correct answer since the last counter reset, yet the tier-up
counter is left at 3 instead of being reset to 0, because the session already
sits at the tier-3 cap and the upgrade guard `current_tier < 3` also skips the
reset. -/
theorem claim_C4_counterexample :
    (runAnswers envFix 20
      { sesFix with practice_exercises :=
          [exFix1, exFix1, exFix1, exFix1, exFix1, exFix1, exFix1, exFix1] }
      ["2", "2", "2", "2", "2", "2"]).current_tier = 3 ∧
    (runAnswers envFix 20
      { sesFix with practice_exercises :=
          [exFix1, exFix1, exFix1, exFix1, exFix1, exFix1, exFix1, exFix1] }
      ["2", "2", "2", "2", "2", "2"]).tier_up_streak = 3 := by
  constructor
  · decide
  · decide

/-- A practice fixture two correct answers into a tier-up streak. -/
def sesC4 : LessonSession := { sesFix with tier_up_streak := 2 }

/-- Witness for C4: the third consecutive correct answer at tier 2 moves the
session to tier 3 and resets the tier-up counter; a fresh session starts at
tier 2. -/
theorem claim_C4_dda_streaks_witness :
    (∃ s' fx, submit_answer envFix 20 sesC4 "2" ⟨0, 0⟩ = some (s', fx) ∧
      s'.current_tier = 3 ∧ s'.tier_up_streak = 0) ∧
    (mkLessonSession 42 lesFix).current_tier = 2 := by
  refine ⟨?_, rfl⟩
  obtain ⟨s', fx, heq, hc⟩ := claim_C4_dda_streaks envFix 20 sesC4 "2" ⟨0, 0⟩
    exFix1 (Or.inr (Or.inl rfl)) rfl
  obtain ⟨h1, h2⟩ := hc.1 (by decide) rfl (by decide)
  exact ⟨s', fx, heq, h1, h2⟩

/-! ### Claims C9 and C10: result recording and the micro quiz -/

/-! Static identity fields (learner, session row, lesson) are never changed by
the answer phases. -/

def staticView (s : LessonSession) : Nat × Nat × Lesson :=
  (s.user_id, s.session_id, s.lesson)

theorem staticView_updateAverages (s : LessonSession) (t e : ℚ) :
    staticView (updateAverages s t e) = staticView s := rfl

theorem staticView_feedbackPhase (env : Env) (s : LessonSession) (ex : Exercise)
    (c u : String) (g : Bool) :
    staticView (feedbackPhase env s ex c u g).1 = staticView s := by
  cases g <;> rfl

theorem staticView_ddaPhase (s : LessonSession) :
    staticView (ddaPhase s).1 = staticView s := by
  unfold ddaPhase
  split
  · rfl
  · split
    · rfl
    · rfl

theorem staticView_storeResult (s : LessonSession) (qr : QuestionResult) :
    staticView (storeResult s qr) = staticView s := by
  unfold storeResult
  split
  · rfl
  · split
    · rfl
    · split
      · rfl
      · rfl

theorem resultsView_feedbackPhase (env : Env) (s : LessonSession)
    (ex : Exercise) (c u : String) (g : Bool) :
    resultsView (feedbackPhase env s ex c u g).1 = resultsView s := by
  cases g <;> rfl

theorem resultsView_ddaPhase (s : LessonSession) :
    resultsView (ddaPhase s).1 = resultsView s := by
  unfold ddaPhase
  split
  · rfl
  · split
    · rfl
    · rfl

theorem storeResult_pretest (s : LessonSession) (qr : QuestionResult)
    (h : s.state = LessonState.PRE_TEST) :
    resultsView (storeResult s qr) =
      (s.pretest_results ++ [qr], s.practice_results, s.posttest_results) := by
  unfold storeResult
  rw [if_pos h]
  rfl

theorem storeResult_practice (s : LessonSession) (qr : QuestionResult)
    (h : s.state = LessonState.PRACTICE) :
    resultsView (storeResult s qr) =
      (s.pretest_results, s.practice_results ++ [qr], s.posttest_results) := by
  unfold storeResult
  rw [if_neg (by simp [h]), if_pos h]
  rfl

theorem storeResult_posttest (s : LessonSession) (qr : QuestionResult)
    (h : s.state = LessonState.POST_TEST) :
    resultsView (storeResult s qr) =
      (s.pretest_results, s.practice_results, s.posttest_results ++ [qr]) := by
  unfold storeResult
  rw [if_neg (by simp [h]), if_neg (by simp [h]), if_pos h]
  rfl

/-- Effect list of the straight-line core, decomposed. -/
theorem answerCore_effects (env : Env) (s : LessonSession) (ex : Exercise)
    (answer : String) (meta : AnswerMeta) :
    (answerCore env s ex answer meta).2.2 =
      (feedbackPhase env (updateAverages s meta.time_sec meta.edits) ex
        (pyStripS ex.raspuns) (pyStripS answer)
        (gradeAnswer (pyStripS ex.raspuns) (pyStripS answer))).2.2 ++
      (ddaPhase (feedbackPhase env (updateAverages s meta.time_sec meta.edits)
        ex (pyStripS ex.raspuns) (pyStripS answer)
        (gradeAnswer (pyStripS ex.raspuns) (pyStripS answer))).1).2 ++
      answerDbEffects (answerCore env s ex answer meta).1 ex
        (answerCore env s ex answer meta).2.1 ++
      [Effect.exerciseResult (answerCore env s ex answer meta).2.1] ++
      _speak env (answerCore env s ex answer meta).2.1.feedback
        (if gradeAnswer (pyStripS ex.raspuns) (pyStripS answer) then "happy"
          else "sad") := by
  unfold answerCore
  dsimp only

/-- The skill codes passed to `update_user_skills` depend only on the lesson
(and exercise), so the core session may be swapped for the root session. -/
theorem skillCodesFor_lesson {a b : LessonSession} (ex : Exercise)
    (h : a.lesson = b.lesson) : skillCodesFor a ex = skillCodesFor b ex := by
  unfold skillCodesFor
  rw [h]


theorem staticView_answerCore (env : Env) (s : LessonSession) (ex : Exercise)
    (answer : String) (meta : AnswerMeta) :
    staticView (answerCore env s ex answer meta).1 = staticView s := by
  rw [answerCore_session, staticView_storeResult, staticView_ddaPhase,
    staticView_feedbackPhase, staticView_updateAverages]

/-- C9 (amended).  Every answer submitted in `PRE_TEST`, `PRACTICE` or
`POST_TEST` (in a session with a persisted session id) produces a
`QuestionResult` that is appended to the current phase's result list and is
forwarded to the mastery tracker tagged with the exercise's skill codes, or
with the derived subject/grade fallback code when the exercise carries none
(`skillCodesFor`); answers in the fourth accepting state, `MICRO_QUIZ`,
produce no `QuestionResult` at all (see `claim_C9_counterexample`). -/
theorem claim_C9_results_and_mastery (env : Env) (fuel : Nat) (s : LessonSession)
    (answer : String) (meta : AnswerMeta) (ex : Exercise)
    (hst : s.state = LessonState.PRE_TEST ∨ s.state = LessonState.PRACTICE ∨
      s.state = LessonState.POST_TEST)
    (hex : (_get_current_exercises s).get? s.current_exercise_idx = some ex)
    (hsid : s.session_id ≠ 0) :
    ∃ s' fx qr, submit_answer env fuel s answer meta = some (s', fx) ∧
      Effect.exerciseResult qr ∈ fx ∧
      (s.state = LessonState.PRE_TEST →
        s'.pretest_results = s.pretest_results ++ [qr]) ∧
      (s.state = LessonState.PRACTICE →
        s'.practice_results = s.practice_results ++ [qr]) ∧
      (s.state = LessonState.POST_TEST →
        s'.posttest_results = s.posttest_results ++ [qr]) ∧
      ∃ w, Effect.dbUpdateUserSkills s.user_id (skillCodesFor s ex)
        qr.is_correct qr.time_sec qr.hints_used w ∈ fx := by
  obtain ⟨hlt, hget⟩ := List.get?_eq_some.mp hex
  have hdisp : submit_answer env fuel s answer meta
      = _answer_exercise env fuel s answer meta := by
    unfold submit_answer
    rcases hst with h | h | h <;> simp [h]
  obtain ⟨s', fx, heq, htier, hres, hmem⟩ :=
    _answer_exercise_fields env fuel s answer meta hst hlt
  rw [hget] at hres hmem
  have hstatic := staticView_answerCore env s ex answer meta
  simp only [staticView, Prod.mk.injEq] at hstatic
  obtain ⟨huid, hsid2, hles⟩ := hstatic
  have hs3state : ((ddaPhase (feedbackPhase env
      (updateAverages s meta.time_sec meta.edits) ex (pyStripS ex.raspuns)
      (pyStripS answer)
      (gradeAnswer (pyStripS ex.raspuns) (pyStripS answer))).1).1).state
      = s.state := by
    rw [ddaPhase_state, feedbackPhase_state, updateAverages_state]
  have hs3res : resultsView ((ddaPhase (feedbackPhase env
      (updateAverages s meta.time_sec meta.edits) ex (pyStripS ex.raspuns)
      (pyStripS answer)
      (gradeAnswer (pyStripS ex.raspuns) (pyStripS answer))).1).1)
      = resultsView s := by
    rw [resultsView_ddaPhase, resultsView_feedbackPhase]
    rfl
  simp only [resultsView, Prod.mk.injEq] at hs3res
  refine ⟨s', fx, (answerCore env s ex answer meta).2.1,
    hdisp.trans heq, hmem _ (answerCore_result_mem env s ex answer meta),
    ?_, ?_, ?_, ?_⟩
  · intro hstate
    rw [answerCore_session] at hres
    rw [storeResult_pretest _ _ (hs3state.trans hstate)] at hres
    simp only [resultsView, Prod.mk.injEq] at hres
    rw [hres.1, hs3res.1]
  · intro hstate
    rw [answerCore_session] at hres
    rw [storeResult_practice _ _ (hs3state.trans hstate)] at hres
    simp only [resultsView, Prod.mk.injEq] at hres
    rw [hres.2.1, hs3res.2.1]
  · intro hstate
    rw [answerCore_session] at hres
    rw [storeResult_posttest _ _ (hs3state.trans hstate)] at hres
    simp only [resultsView, Prod.mk.injEq] at hres
    rw [hres.2.2, hs3res.2.2]
  · have heff := answerCore_effects env s ex answer meta
    generalize hcore : answerCore env s ex answer meta = core
      at heff hmem huid hsid2 hles
    refine ⟨tierWeight core.1.current_tier, ?_⟩
    apply hmem
    rw [heff]
    have h2 : Effect.dbUpdateUserSkills s.user_id (skillCodesFor s ex)
        core.2.1.is_correct core.2.1.time_sec core.2.1.hints_used
        (tierWeight core.1.current_tier)
        ∈ (if core.1.session_id ≠ 0 then
            [Effect.dbUpdateUserSkills core.1.user_id (skillCodesFor core.1 ex)
              core.2.1.is_correct core.2.1.time_sec core.2.1.hints_used
              (tierWeight core.1.current_tier)]
          else []) := by
      rw [if_pos (show core.1.session_id ≠ 0 by rw [hsid2]; exact hsid)]
      rw [huid, skillCodesFor_lesson ex hles]
      exact List.Mem.head _
    have hC : Effect.dbUpdateUserSkills s.user_id (skillCodesFor s ex)
        core.2.1.is_correct core.2.1.time_sec core.2.1.hints_used
        (tierWeight core.1.current_tier)
        ∈ answerDbEffects core.1 ex core.2.1 := by
      unfold answerDbEffects
      exact List.mem_append_left _ (List.mem_append_left _
        (List.mem_append_right _ h2))
    exact List.mem_append_left _ (List.mem_append_left _
      (List.mem_append_right _ hC))


/-! Chunk-index preservation along the practice/posttest cascade (claim C10). -/

theorem chunkIdx_finish (env : Env) (s : LessonSession) :
    (_finish_session env s).1.current_chunk_idx = s.current_chunk_idx := rfl

theorem chunkIdx_complete_post (env : Env) (fuel : Nat) (s : LessonSession)
    (h : s.state = LessonState.POST_TEST) :
    (_complete_phase env fuel s).1.current_chunk_idx = s.current_chunk_idx := by
  cases fuel with
  | zero => rfl
  | succ f =>
    rw [_complete_phase, if_neg (by simp [h]), if_neg (by simp [h]),
      if_neg (by simp [h]), if_pos h]
    exact chunkIdx_finish env s

theorem chunkIdx_show_post (env : Env) (fuel : Nat) (s : LessonSession)
    (h : s.state = LessonState.POST_TEST) :
    (_show_current_exercise env fuel s).1.current_chunk_idx
      = s.current_chunk_idx := by
  cases fuel with
  | zero => rfl
  | succ f =>
    rw [_show_current_exercise]
    split
    · rfl
    · exact chunkIdx_complete_post env f s h

theorem chunkIdx_start_posttest (env : Env) (fuel : Nat) (s : LessonSession) :
    (_start_posttest env fuel s).1.current_chunk_idx = s.current_chunk_idx := by
  cases fuel with
  | zero => rfl
  | succ f =>
    rw [_start_posttest]
    dsimp only [_transition_to]
    split
    · exact chunkIdx_show_post env f _ rfl
    · exact chunkIdx_show_post env f _ rfl

theorem chunkIdx_complete_practice (env : Env) (fuel : Nat) (s : LessonSession)
    (h : s.state = LessonState.PRACTICE) :
    (_complete_phase env fuel s).1.current_chunk_idx = s.current_chunk_idx := by
  cases fuel with
  | zero => rfl
  | succ f =>
    rw [_complete_phase, if_neg (by simp [h]), if_neg (by simp [h]), if_pos h]
    exact chunkIdx_start_posttest env f s

theorem chunkIdx_show_practice (env : Env) (fuel : Nat) (s : LessonSession)
    (h : s.state = LessonState.PRACTICE) :
    (_show_current_exercise env fuel s).1.current_chunk_idx
      = s.current_chunk_idx := by
  cases fuel with
  | zero => rfl
  | succ f =>
    rw [_show_current_exercise]
    split
    · rfl
    · exact chunkIdx_complete_practice env f s h

theorem chunkIdx_start_practice (env : Env) (fuel : Nat) (s : LessonSession) :
    (_start_practice env fuel s).1.current_chunk_idx = s.current_chunk_idx := by
  cases fuel with
  | zero => rfl
  | succ f =>
    rw [_start_practice]
    dsimp only [_transition_to]
    exact chunkIdx_show_practice env f _ rfl

theorem chunkIdx_show_chunk (env : Env) (fuel : Nat) (s : LessonSession) :
    (_show_current_chunk env fuel s).1.current_chunk_idx
      = s.current_chunk_idx := by
  cases fuel with
  | zero => rfl
  | succ f =>
    rw [_show_current_chunk]
    split
    · exact chunkIdx_start_practice env f s
    · dsimp only
      split
      · dsimp only [_transition_to]
        split
        · rfl
        · rfl
      · exact chunkIdx_start_practice env f s

/-- C10.  For an answer submitted in `MICRO_QUIZ` with a quiz loaded: the
answer is counted correct iff the trimmed, lowercased learner answer equals
the trimmed, lowercased expected answer or contains it as a substring; on a
correct answer the theory chunk index advances by exactly one, and on an
incorrect answer the chunk index is unchanged and the engine re-teaches the
same chunk (speaking the retry message before re-presenting it). -/
theorem claim_C10_micro_quiz (env : Env) (fuel : Nat) (s : LessonSession)
    (answer : String) (meta : AnswerMeta) (ex : Exercise)
    (hst : s.state = LessonState.MICRO_QUIZ)
    (hq : s.micro_quiz_ex = some ex) :
    ∃ s' fx, submit_answer env fuel s answer meta = some (s', fx) ∧
      ((pyLowerS (pyStripS answer) == pyLowerS (pyStripS ex.raspuns) ||
          pySubstr (pyLowerS (pyStripS ex.raspuns)) (pyLowerS (pyStripS answer)))
          = true →
        s'.current_chunk_idx = s.current_chunk_idx + 1) ∧
      ((pyLowerS (pyStripS answer) == pyLowerS (pyStripS ex.raspuns) ||
          pySubstr (pyLowerS (pyStripS ex.raspuns)) (pyLowerS (pyStripS answer)))
          = false →
        s'.current_chunk_idx = s.current_chunk_idx ∧
        Effect.ttsSpeak
          (env.sanitize "Ok, hai să mai luăm o dată cu un exemplu simplu.")
          ∈ fx) := by
  have hdisp : submit_answer env fuel s answer meta
      = some (_answer_micro_quiz env fuel s answer) := by
    unfold submit_answer
    rw [if_neg (by simp [hst]), if_pos hst]
  rw [hdisp]
  unfold _answer_micro_quiz
  rw [hq]
  dsimp only [_transition_to]
  split
  · rename_i hok
    refine ⟨_, _, rfl, ?_, ?_⟩
    · intro _
      rw [chunkIdx_show_chunk]
    · intro hbad
      rw [hok] at hbad
      cases hbad
  · rename_i hok
    refine ⟨_, _, rfl, ?_, ?_⟩
    · intro hgood
      exact absurd hgood hok
    · intro _
      constructor
      · rw [chunkIdx_show_chunk]
      · refine List.mem_append_left _ (List.mem_append_left _ ?_)
        unfold _speak _emit_emotion
        dsimp only
        exact List.mem_append_right _ (List.Mem.head _)


/-- A session fixture sitting in the micro-quiz state with a quiz loaded. -/
def sesMQ : LessonSession :=
  { sesFix with state := LessonState.MICRO_QUIZ,
                micro_quiz_ex := some exFix1 }

/-- C9 (counterexample to the unamended claim).  `MICRO_QUIZ` is an
answer-accepting state, yet an answer submitted there produces no
`QuestionResult` (no result list grows, no `exerciseResult` callback) and
nothing is forwarded to the mastery tracker. -/
theorem claim_C9_counterexample :
    (submit_answer envFix 20 sesMQ "raspuns gresit" ⟨0, 0⟩).map (fun p =>
        (p.1.pretest_results.length, p.1.practice_results.length,
          p.1.posttest_results.length,
          p.2.any (fun e =>
            match e with
            | Effect.dbUpdateUserSkills _ _ _ _ _ _ => true
            | Effect.exerciseResult _ => true
            | _ => false)))
      = some (0, 0, 0, false) := by
  decide

/-- Witness for C9: a practice answer in the fixture session. -/
theorem claim_C9_results_witness :
    ∃ s' fx qr, submit_answer envFix 20 sesFix "2" ⟨0, 0⟩ = some (s', fx) ∧
      Effect.exerciseResult qr ∈ fx ∧
      (sesFix.state = LessonState.PRE_TEST →
        s'.pretest_results = sesFix.pretest_results ++ [qr]) ∧
      (sesFix.state = LessonState.PRACTICE →
        s'.practice_results = sesFix.practice_results ++ [qr]) ∧
      (sesFix.state = LessonState.POST_TEST →
        s'.posttest_results = sesFix.posttest_results ++ [qr]) ∧
      ∃ w, Effect.dbUpdateUserSkills sesFix.user_id (skillCodesFor sesFix exFix1)
        qr.is_correct qr.time_sec qr.hints_used w ∈ fx :=
  claim_C9_results_and_mastery envFix 20 sesFix "2" ⟨0, 0⟩ exFix1
    (Or.inr (Or.inl rfl)) rfl (by decide)

/-- Witness for C10: answering the loaded micro quiz correctly advances the
theory chunk index from 0 to 1. -/
theorem claim_C10_micro_quiz_witness :
    ∃ s' fx, submit_answer envFix 20 sesMQ " 2 " ⟨0, 0⟩ = some (s', fx) ∧
      s'.current_chunk_idx = sesMQ.current_chunk_idx + 1 := by
  obtain ⟨s', fx, heq, hca, hcb⟩ := claim_C10_micro_quiz envFix 20 sesMQ
    " 2 " ⟨0, 0⟩ exFix1 rfl rfl
  exact ⟨s', fx, heq, hca (by decide)⟩

/-! ### C5 and C6: the mastery tracker (`Database.update_user_skills`) -/


/-- Repeated same-day attempts on one skill code: fold the per-attempt row
update (`Database.update_user_skills` called once per attempt) over a list of
`(is_correct, weight, time_sec)` triples, all dated `today`. -/
def applyDayAttempts (r : SkillRecord) (code : String)
    (atts : List (Bool × ℚ × ℚ)) (today : String) : SkillRecord :=
  atts.foldl
    (fun s a => update_user_skill_row (some s) code a.1 a.2.1 a.2.2 today) r

/-- Fixture for C5/C6: an existing row mid-progress. -/
def skC5 : SkillRecord :=
  { skill_code := "MAT4.ADD", mastery := 0.5, attempts := 4, correct := 2,
    avg_time := 4, skill_streak := 0, mastery_level := 1,
    last_practiced := "2026-10-11" }

/-- C5 (counterexample): on first touch the code does not create a zero-state
record and apply the `+0.15 × weight` delta (which would give mastery `0.15`):
it writes mastery `0.6` directly.  Moreover with an unknown response time
(`time_sec = 0`) the exponential moving average is skipped entirely, not folded
with smoothing factor 0.2. -/
theorem claim_C5_counterexample :
    (update_user_skill_row none "MAT4.ADD" true 1 10 "2026-10-12").mastery
        = 0.6 ∧
    (0.6 : ℚ) ≠ max 0 (min 1 (0 + 0.15 * 1)) ∧
    (update_user_skill_row (some skC5) "MAT4.ADD" true 1 0 "2026-10-12").avg_time
        = skC5.avg_time ∧
    skC5.avg_time ≠ skC5.avg_time * 0.8 + 0 * 0.2 := by
  refine ⟨rfl, by norm_num [min_def, max_def], rfl, by norm_num [skC5]⟩

/-- C5 (amended): on the first recorded attempt for a skill code a fresh row
is created directly with mastery `0.6` (correct) or `0.2` (incorrect); on every
later attempt the mastery score moves by `+0.15 × weight` on correct and
`−0.10 × weight` on incorrect, clamped to `[0,1]` (the clamp is exact whenever
the moved value already lies in `[0,1]`); the response-time average is folded
as an exponential moving average with smoothing factor 0.2 only when a positive
response time is reported, and is left unchanged otherwise; the same-skill
streak increments on correct and resets to 0 on incorrect. -/
theorem claim_C5_mastery_update (r : SkillRecord) (code : String) (g : Bool)
    (w t : ℚ) (today : String) :
    ((update_user_skill_row none code g w t today).mastery
        = if g then (0.6 : ℚ) else 0.2) ∧
    (0 ≤ (update_user_skill_row (some r) code g w t today).mastery ∧
      (update_user_skill_row (some r) code g w t today).mastery ≤ 1) ∧
    (0 ≤ r.mastery + (if g then (0.15 : ℚ) else -0.10) * w →
      r.mastery + (if g then (0.15 : ℚ) else -0.10) * w ≤ 1 →
      (update_user_skill_row (some r) code g w t today).mastery
        = r.mastery + (if g then (0.15 : ℚ) else -0.10) * w) ∧
    (0 < t →
      (update_user_skill_row (some r) code g w t today).avg_time
        = r.avg_time * 0.8 + t * 0.2) ∧
    (¬ 0 < t →
      (update_user_skill_row (some r) code g w t today).avg_time
        = r.avg_time) ∧
    ((update_user_skill_row (some r) code g w t today).skill_streak
        = if g then r.skill_streak + 1 else 0) := by
  have e0 : (0.0 : ℚ) = 0 := by norm_num
  have e1 : (1.0 : ℚ) = 1 := by norm_num
  refine ⟨rfl, ⟨?_, ?_⟩, ?_, ?_, ?_, rfl⟩
  · unfold update_user_skill_row
    dsimp only
    rw [e0, e1]
    exact le_max_left _ _
  · unfold update_user_skill_row
    dsimp only
    rw [e0, e1]
    exact max_le (by norm_num) ((min_le_left _ _).trans (by norm_num))
  · intro h0 h1
    unfold update_user_skill_row
    dsimp only
    rw [e0, e1, min_eq_right h1, max_eq_right h0]
  · intro ht
    unfold update_user_skill_row
    dsimp only
    rw [if_pos ht]
  · intro ht
    unfold update_user_skill_row
    dsimp only
    rw [if_neg ht]

theorem claim_C5_mastery_update_witness :
    ((update_user_skill_row (some skC5) "MAT4.ADD" true 1 5 "2026-10-12").mastery
        = skC5.mastery + (if true then (0.15 : ℚ) else -0.10) * 1) ∧
    ((update_user_skill_row (some skC5) "MAT4.ADD" true 1 5 "2026-10-12").avg_time
        = skC5.avg_time * 0.8 + 5 * 0.2) :=
  ⟨(claim_C5_mastery_update skC5 "MAT4.ADD" true 1 5 "2026-10-12").2.2.1
      (by norm_num [skC5]) (by norm_num [skC5]),
    (claim_C5_mastery_update skC5 "MAT4.ADD" true 1 5 "2026-10-12").2.2.2.1
      (by norm_num)⟩

def skC6 : SkillRecord :=
  { skill_code := "S", mastery := 0.3, attempts := 10, correct := 5,
    avg_time := 0, skill_streak := 0, mastery_level := 2,
    last_practiced := "2026-10-11" }

def skC6b : SkillRecord :=
  { skC6 with last_practiced := "2026-10-12" }

/-- C6: the discrete mastery level of a skill row never changes on an attempt
recorded on the same calendar day as the row's last practice (and hence stays
fixed over any same-day attempt sequence, since every update stamps
`last_practiced := today`); when the day differs, advancing to level 3 requires
accuracy ≥ 0.90 over ≥ 12 attempts, level 2 requires ≥ 0.85 over ≥ 8, level 1
requires ≥ 0.80 over ≥ 5 (accuracy and attempts counted after the current
attempt), and accuracy < 0.50 over ≥ 10 attempts demotes the row one level. -/
theorem claim_C6_level_once_per_day :
    (∀ (r : SkillRecord) (code : String) (g : Bool) (w t : ℚ) (today : String),
      r.last_practiced = today →
      (update_user_skill_row (some r) code g w t today).mastery_level
        = r.mastery_level) ∧
    (∀ (row : Option SkillRecord) (code : String) (g : Bool) (w t : ℚ)
        (today : String),
      (update_user_skill_row row code g w t today).last_practiced = today) ∧
    (∀ (s : SkillRecord) (code : String) (atts : List (Bool × ℚ × ℚ))
        (today : String),
      s.last_practiced = today →
      (applyDayAttempts s code atts today).mastery_level = s.mastery_level) ∧
    (∀ (r : SkillRecord) (code : String) (g : Bool) (w t : ℚ) (today : String),
      r.last_practiced ≠ today →
      (update_user_skill_row (some r) code g w t today).mastery_level
          > r.mastery_level →
      ((update_user_skill_row (some r) code g w t today).mastery_level = 3 →
        ((r.correct + if g then 1 else 0 : ℕ) : ℚ)
            / ((max 1 (r.attempts + 1) : ℕ) : ℚ) ≥ 0.90
          ∧ r.attempts + 1 ≥ 12) ∧
      ((update_user_skill_row (some r) code g w t today).mastery_level = 2 →
        ((r.correct + if g then 1 else 0 : ℕ) : ℚ)
            / ((max 1 (r.attempts + 1) : ℕ) : ℚ) ≥ 0.85
          ∧ r.attempts + 1 ≥ 8) ∧
      ((update_user_skill_row (some r) code g w t today).mastery_level = 1 →
        ((r.correct + if g then 1 else 0 : ℕ) : ℚ)
            / ((max 1 (r.attempts + 1) : ℕ) : ℚ) ≥ 0.80
          ∧ r.attempts + 1 ≥ 5)) ∧
    (∀ (r : SkillRecord) (code : String) (g : Bool) (w t : ℚ) (today : String),
      r.last_practiced ≠ today →
      ((r.correct + if g then 1 else 0 : ℕ) : ℚ)
          / ((max 1 (r.attempts + 1) : ℕ) : ℚ) < 0.50 →
      r.attempts + 1 ≥ 10 →
      (update_user_skill_row (some r) code g w t today).mastery_level
        = r.mastery_level - 1) := by
  have hsame : ∀ (r : SkillRecord) (code : String) (g : Bool) (w t : ℚ)
      (today : String), r.last_practiced = today →
      (update_user_skill_row (some r) code g w t today).mastery_level
        = r.mastery_level := by
    intro r code g w t today h
    unfold update_user_skill_row
    dsimp only
    rw [if_neg (not_not_intro h)]
  have hstamp : ∀ (row : Option SkillRecord) (code : String) (g : Bool)
      (w t : ℚ) (today : String),
      (update_user_skill_row row code g w t today).last_practiced = today := by
    intro row code g w t today
    cases row <;> rfl
  refine ⟨hsame, hstamp, ?_, ?_, ?_⟩
  · intro s code atts today h
    induction atts generalizing s with
    | nil => rfl
    | cons a as ih =>
      show (applyDayAttempts
          (update_user_skill_row (some s) code a.1 a.2.1 a.2.2 today)
          code as today).mastery_level = s.mastery_level
      rw [ih _ (hstamp _ _ _ _ _ _), hsame _ _ _ _ _ _ h]
  · intro r code g w t today hday
    unfold update_user_skill_row
    dsimp only
    rw [if_pos hday]
    generalize (r.correct + if g then 1 else 0 : ℕ) = cor
    split_ifs with h1 h2 h3 h4 h5 h6 h7 <;> intro hgt
    · exfalso; linarith [h1.1, h2.1]
    · exact ⟨fun _ => h1, fun he => absurd he (by omega),
        fun he => absurd he (by omega)⟩
    · exfalso; linarith [h3.1, h4.1]
    · exact ⟨fun he => by omega, fun _ => h3, fun he => by omega⟩
    · exfalso; linarith [h5.1, h6.1]
    · exact ⟨fun he => by omega, fun he => by omega, fun _ => h5⟩
    · exact ⟨fun he => by omega, fun he => by omega, fun he => by omega⟩
    · exfalso; omega
  · intro r code g w t today hday hacc hatt
    revert hacc hatt
    unfold update_user_skill_row
    dsimp only
    rw [if_pos hday]
    generalize (r.correct + if g then 1 else 0 : ℕ) = cor
    intro hacc hatt
    split_ifs with h1 h2 h3 h4 h5 h6 h7
    · exfalso; linarith [h1.1]
    · exfalso; linarith [h1.1]
    · exfalso; linarith [h3.1]
    · exfalso; linarith [h3.1]
    · exfalso; linarith [h5.1]
    · exfalso; linarith [h5.1]
    · rfl
    · have h0 : ¬ r.mastery_level > 0 := fun hc => h7 ⟨hacc, hatt, hc⟩
      omega

theorem claim_C6_level_once_per_day_witness :
    ((update_user_skill_row (some skC6) "S" false 1 0 "2026-10-12").mastery_level
        = skC6.mastery_level - 1) ∧
    ((update_user_skill_row (some skC6b) "S" true 1 5 "2026-10-12").mastery_level
        = skC6b.mastery_level) ∧
    ((applyDayAttempts skC6b "S" [(true, 1, 5), (true, 1, 5), (true, 1, 5)]
        "2026-10-12").mastery_level = skC6b.mastery_level) :=
  ⟨claim_C6_level_once_per_day.2.2.2.2 skC6 "S" false 1 0 "2026-10-12"
      (by decide) (by norm_num [skC6]) (by norm_num [skC6]),
    claim_C6_level_once_per_day.1 skC6b "S" true 1 5 "2026-10-12" rfl,
    claim_C6_level_once_per_day.2.2.1 skC6b "S"
      [(true, 1, 5), (true, 1, 5), (true, 1, 5)] "2026-10-12" rfl⟩

/-! ### C7: the tier-4 gate and the adaptive selector -/


lemma filter_map_length {α β : Type} (f : α → β) (p : β → Bool) (l : List α) :
    ((l.map f).filter p).length = (l.filter (fun a => p (f a))).length := by
  induction l with
  | nil => rfl
  | cons a t ih => by_cases h : p (f a) <;> simp [List.filter_cons, h, ih]

/-- If some required code is missing from the (duplicate-free) key column,
strictly fewer rows match than there are (duplicate-free) codes. -/
lemma tracked_count_lt (table : List SkillRecord) (codes : List String)
    (hk : (table.map (fun r => r.skill_code)).Nodup) (hc : codes.Nodup)
    (c : String) (hmem : c ∈ codes) (hnot : ∀ r ∈ table, r.skill_code ≠ c) :
    (table.filter (fun r => codes.contains r.skill_code)).length
      < codes.length := by
  have hlen : (table.filter (fun r => codes.contains r.skill_code)).length
      = ((table.map (fun r => r.skill_code)).filter
          (fun k => codes.contains k)).length :=
    (filter_map_length _ _ _).symm
  set keys := table.map (fun r => r.skill_code) with hkeys
  have h1 : (keys.filter (fun k => codes.contains k)).Nodup := hk.filter _
  have h2 : (keys.filter (fun k => codes.contains k)).length
      = (keys.filter (fun k => codes.contains k)).toFinset.card :=
    (List.toFinset_card_of_nodup h1).symm
  have h3 : (keys.filter (fun k => codes.contains k)).toFinset
      = keys.toFinset.filter (fun k => codes.contains k) :=
    List.toFinset_filter _ _
  have hsub : keys.toFinset.filter (fun k => codes.contains k)
      ⊆ codes.toFinset := by
    intro x hx
    rcases Finset.mem_filter.mp hx with ⟨_, hpx⟩
    exact List.mem_toFinset.mpr (List.elem_iff.mp hpx)
  have hcnot : c ∉ keys.toFinset.filter (fun k => codes.contains k) := by
    intro hx
    rcases Finset.mem_filter.mp hx with ⟨hck, _⟩
    rcases List.mem_map.mp (List.mem_toFinset.mp hck) with ⟨r, hr, hrc⟩
    exact hnot r hr hrc
  have hss : keys.toFinset.filter (fun k => codes.contains k)
      ⊂ codes.toFinset :=
    (Finset.ssubset_iff_of_subset hsub).mpr
      ⟨c, List.mem_toFinset.mpr hmem, hcnot⟩
  have hcard := Finset.card_lt_card hss
  rw [List.toFinset_card_of_nodup hc] at hcard
  rw [hlen, h2, h3]
  exact hcard

/-- C7: with a duplicate-free key column (the `UNIQUE(user_id, skill_code)`
constraint) and a duplicate-free requirement set, `can_access_tier4` is false
on an empty requirement list, false whenever some required skill has no
tracked row, and true only when every required skill has a row with mastery
level ≥ 2; whenever the gate fails on the pool's referenced skill codes, the
adaptive selector returns no tier-4 exercise. -/
theorem claim_C7_tier4_gate (table : List SkillRecord) (codes : List String)
    (hk : (table.map (fun r => r.skill_code)).Nodup) (hc : codes.Nodup) :
    can_access_tier4 table [] = false ∧
    ((∃ c ∈ codes, ∀ r ∈ table, r.skill_code ≠ c) →
      can_access_tier4 table codes = false) ∧
    (can_access_tier4 table codes = true →
      ∀ c ∈ codes, ∃ r ∈ table, r.skill_code = c ∧ 2 ≤ r.mastery_level) ∧
    (∀ (pool : List Exercise) (due_ids : List Nat) (n : Nat),
      can_access_tier4 table
          (((pool.map (fun e => e.skill_codes)).flatten).dedup) = false →
      ∀ e ∈ select_adaptive_exercises table pool due_ids n, effTier e < 4) := by
  have part2 : (∃ c ∈ codes, ∀ r ∈ table, r.skill_code ≠ c) →
      can_access_tier4 table codes = false := by
    rintro ⟨c, hmem, hnot⟩
    have hne : ¬ codes.isEmpty = true := by
      intro h
      rw [List.isEmpty_iff.mp h] at hmem
      simp at hmem
    unfold can_access_tier4
    rw [if_neg hne]
    dsimp only
    rw [if_pos (tracked_count_lt table codes hk hc c hmem hnot)]
  refine ⟨rfl, part2, ?_, ?_⟩
  · intro htrue c hmem
    by_cases hex : ∃ r ∈ table, r.skill_code = c
    · rcases hex with ⟨r, hr, hrc⟩
      refine ⟨r, hr, hrc, ?_⟩
      have hne : ¬ codes.isEmpty = true := by
        intro h
        rw [List.isEmpty_iff.mp h] at hmem
        simp at hmem
      unfold can_access_tier4 at htrue
      rw [if_neg hne] at htrue
      dsimp only at htrue
      by_cases hlt : (table.filter
          (fun r => codes.contains r.skill_code)).length < codes.length
      · rw [if_pos hlt] at htrue
        exact absurd htrue (by simp)
      · rw [if_neg hlt] at htrue
        have hrrow : r ∈ table.filter
            (fun r => codes.contains r.skill_code) :=
          List.mem_filter.mpr ⟨hr, by rw [hrc]; exact List.elem_iff.mpr hmem⟩
        exact of_decide_eq_true (List.all_eq_true.mp htrue r hrrow)
    · exfalso
      have hall : ∀ r ∈ table, r.skill_code ≠ c := by
        intro r hr hrc
        exact hex ⟨r, hr, hrc⟩
      rw [part2 ⟨c, hmem, hall⟩] at htrue
      exact absurd htrue (by simp)
  · intro pool due_ids n hgate e he
    unfold select_adaptive_exercises at he
    by_cases hpe : pool.isEmpty = true
    · rw [if_pos hpe] at he
      simp at he
    · rw [if_neg hpe] at he
      dsimp only at he
      rw [hgate, if_neg Bool.false_ne_true] at he
      have h1 := List.take_subset _ _ he
      have h2 : e ∈ (pool.filter (fun e => decide (effTier e < 4))).mergeSort
          (fun a b =>
            decide (exercisePriority table b ≤ exercisePriority table a)) := by
        rcases List.mem_append.mp h1 with h | h
        · exact (List.filter_sublist _).subset h
        · exact (List.filter_sublist _).subset h
      have h3 : e ∈ pool.filter (fun e => decide (effTier e < 4)) :=
        (List.mergeSort_perm _ _).mem_iff.mp h2
      exact of_decide_eq_true (List.mem_filter.mp h3).2

def tblC7 : List SkillRecord :=
  [{ skill_code := "A", mastery := 0.9, attempts := 20, correct := 19,
     avg_time := 3, skill_streak := 5, mastery_level := 2,
     last_practiced := "2026-10-10" }]

def exC7low : Exercise :=
  { id := 11, enunt := "q1", raspuns := "1", explicatie := "",
    skill_codes := ["A"], dificultate := 1, difficulty_tier := 1 }

def exC7elite : Exercise :=
  { id := 12, enunt := "q2", raspuns := "2", explicatie := "",
    skill_codes := ["B"], dificultate := 3, difficulty_tier := 4 }

def poolC7 : List Exercise := [exC7elite, exC7low]

theorem claim_C7_tier4_gate_witness :
    can_access_tier4 tblC7 ["A", "B"] = false ∧ effTier exC7low < 4 := by
  have hmem : exC7low ∈ select_adaptive_exercises tblC7 poolC7 [] 5 := by
    unfold select_adaptive_exercises
    rw [if_neg (by decide)]
    dsimp only
    rw [show can_access_tier4 tblC7
          (((poolC7.map (fun e => e.skill_codes)).flatten).dedup) = false
        from by decide,
      if_neg Bool.false_ne_true,
      show poolC7.filter (fun e => decide (effTier e < 4)) = [exC7low]
        from rfl,
      List.mergeSort_singleton]
    decide
  exact ⟨(claim_C7_tier4_gate tblC7 ["A", "B"] (by decide) (by decide)).2.1
      ⟨"B", by decide, by decide⟩,
    (claim_C7_tier4_gate tblC7 ["A", "B"] (by decide) (by decide)).2.2.2
      poolC7 [] 5 (by decide) exC7low hmem⟩

/-! ### C8: the algebraic normalization claim -/

/-! ### C8: rendering integers with thousands separators (from the claim) -/

/-- The three notations the claim quantifies over. -/
inductive NumNotation where
  | plain
  | dotSep
  | spaceSep

/-- The decimal digit characters. -/
def dChars : List Char := ['0', '1', '2', '3', '4', '5', '6', '7', '8', '9']

def natDigitChar (d : Nat) : Char :=
  match d with
  | 0 => '0' | 1 => '1' | 2 => '2' | 3 => '3' | 4 => '4'
  | 5 => '5' | 6 => '6' | 7 => '7' | 8 => '8' | _ => '9'

def charToDigit (c : Char) : Nat := c.toNat - 48

/-- Decimal digits of `n`, least significant first, with fuel. -/
def digitsRevOf : Nat → Nat → List Char
  | 0, _ => []
  | _ + 1, 0 => []
  | fuel + 1, n + 1 => natDigitChar ((n + 1) % 10) :: digitsRevOf fuel ((n + 1) / 10)

/-- Python `str(n)` for `1 ≤ n`: most significant digit first. -/
def digitsOf (n : Nat) : List Char := (digitsRevOf n n).reverse

/-- Insert `sep` before every group of three digits counted from the right. -/
def groupThousandsAux (sep : Char) : Nat → List Char → List Char
  | 0, ds => ds
  | fuel + 1, ds =>
    if ds.length ≤ 3 then ds
    else
      groupThousandsAux sep fuel (ds.take (ds.length - 3))
        ++ sep :: ds.drop (ds.length - 3)

def groupThousands (sep : Char) (ds : List Char) : List Char :=
  groupThousandsAux sep ds.length ds

/-- The number `n` written in one of the three supported notations. -/
def renderNum (n : Nat) : NumNotation → String
  | NumNotation.plain => String.mk (digitsOf n)
  | NumNotation.dotSep => String.mk (groupThousands '.' (digitsOf n))
  | NumNotation.spaceSep => String.mk (groupThousands ' ' (digitsOf n))

/-! #### Digit-character facts -/

lemma dChar_isDigit {c : Char} (h : c ∈ dChars) : c.isDigit = true := by
  simp only [dChars, List.mem_cons, List.not_mem_nil, or_false] at h
  rcases h with rfl | rfl | rfl | rfl | rfl | rfl | rfl | rfl | rfl | rfl <;> rfl

lemma dChar_lower {c : Char} (h : c ∈ dChars) : pyLowerChar c = c := by
  simp only [dChars, List.mem_cons, List.not_mem_nil, or_false] at h
  rcases h with rfl | rfl | rfl | rfl | rfl | rfl | rfl | rfl | rfl | rfl <;> rfl

lemma dChar_not_pyspace {c : Char} (h : c ∈ dChars) : isPySpace c = false := by
  simp only [dChars, List.mem_cons, List.not_mem_nil, or_false] at h
  rcases h with rfl | rfl | rfl | rfl | rfl | rfl | rfl | rfl | rfl | rfl <;> rfl

lemma dChar_ne_sep {c sep : Char} (hc : c ∈ dChars) (hsep : sep.isDigit = false) :
    ¬ c = sep := by
  intro h
  rw [← h, dChar_isDigit hc] at hsep
  cases hsep

lemma sep_not_mem {sep : Char} (l : List Char) (hl : ∀ c ∈ l, c ∈ dChars)
    (hsep : sep.isDigit = false) : sep ∉ l := by
  intro hm
  exact dChar_ne_sep (hl sep hm) hsep rfl

lemma natDigitChar_mem {d : Nat} (h : d < 10) : natDigitChar d ∈ dChars := by
  interval_cases d <;> decide

lemma charToDigit_natDigitChar {d : Nat} (h : d < 10) :
    charToDigit (natDigitChar d) = d := by
  interval_cases d <;> rfl

/-! #### `digitsOf` facts -/

lemma digitsRevOf_mem (fuel n : Nat) : ∀ c ∈ digitsRevOf fuel n, c ∈ dChars := by
  induction fuel generalizing n with
  | zero => intro c hc; simp [digitsRevOf] at hc
  | succ fuel ih =>
    cases n with
    | zero => intro c hc; simp [digitsRevOf] at hc
    | succ n =>
      intro c hc
      rcases List.mem_cons.mp hc with rfl | hc
      · exact natDigitChar_mem (Nat.mod_lt _ (by norm_num))
      · exact ih _ c hc

lemma digitsOf_mem (n : Nat) : ∀ c ∈ digitsOf n, c ∈ dChars := by
  intro c hc
  exact digitsRevOf_mem n n c (List.mem_reverse.mp hc)

/-- Recover the value encoded by a least-significant-first digit list. -/
def lsbVal : List Char → Nat
  | [] => 0
  | c :: r => charToDigit c + 10 * lsbVal r

lemma digitsRevOf_val (fuel n : Nat) (h : n ≤ fuel) :
    lsbVal (digitsRevOf fuel n) = n := by
  induction fuel generalizing n with
  | zero => interval_cases n; rfl
  | succ fuel ih =>
    cases n with
    | zero => rfl
    | succ n =>
      have hd : (n + 1) / 10 ≤ fuel := by
        have := Nat.div_lt_self (Nat.succ_pos n) (by norm_num : (1:Nat) < 10)
        omega
      show charToDigit (natDigitChar ((n + 1) % 10))
          + 10 * lsbVal (digitsRevOf fuel ((n + 1) / 10)) = n + 1
      rw [charToDigit_natDigitChar (Nat.mod_lt _ (by norm_num)), ih _ hd]
      omega

lemma digitsOf_inj {a b : Nat} (h : digitsOf a = digitsOf b) : a = b := by
  have h2 : digitsRevOf a a = digitsRevOf b b := by
    have := congrArg List.reverse h
    simpa [digitsOf] using this
  have := congrArg lsbVal h2
  rwa [digitsRevOf_val a a le_rfl, digitsRevOf_val b b le_rfl] at this

lemma digitsRevOf_len (k : Nat) :
    ∀ fuel n, n < 10 ^ k → (digitsRevOf fuel n).length ≤ k := by
  induction k with
  | zero =>
    intro fuel n h
    have : n = 0 := by simpa using h
    subst this
    cases fuel <;> simp [digitsRevOf]
  | succ k ih =>
    intro fuel n h
    cases fuel with
    | zero => simp [digitsRevOf]
    | succ fuel =>
      cases n with
      | zero => simp [digitsRevOf]
      | succ n =>
        show (natDigitChar ((n + 1) % 10) :: digitsRevOf fuel ((n + 1) / 10)).length ≤ k + 1
        rw [List.length_cons]
        have hlt : (n + 1) / 10 < 10 ^ k := by
          rw [Nat.div_lt_iff_lt_mul (by norm_num : (0:Nat) < 10)]
          calc n + 1 < 10 ^ (k + 1) := h
          _ = 10 ^ k * 10 := by ring
        exact Nat.succ_le_succ (ih fuel _ hlt)

lemma digitsOf_len {n k : Nat} (h : n < 10 ^ k) : (digitsOf n).length ≤ k := by
  simpa [digitsOf] using digitsRevOf_len k n n h

lemma digitsOf_pos {n : Nat} (h : 1 ≤ n) : 1 ≤ (digitsOf n).length := by
  cases n with
  | zero => omega
  | succ n => simp [digitsOf, digitsRevOf]

/-! #### `takeDigits` facts -/

lemma takeDigits_eq (g r : List Char) (hg : ∀ c ∈ g, c ∈ dChars) :
    takeDigits g.length (g ++ r) = some (g, r) := by
  induction g with
  | nil => rfl
  | cons a t ih =>
    show takeDigits (t.length + 1) (a :: (t ++ r)) = _
    rw [takeDigits, if_pos (dChar_isDigit (hg a (List.mem_cons_self a t))),
      ih (fun c hc => hg c (List.mem_cons_of_mem _ hc))]

lemma takeDigits_none (k : Nat) (g : List Char) (c : Char) (r : List Char)
    (hg : ∀ x ∈ g, x ∈ dChars) (hlen : g.length < k) (hc : c.isDigit = false) :
    takeDigits k (g ++ c :: r) = none := by
  induction g generalizing k with
  | nil =>
    cases k with
    | zero => omega
    | succ k => show takeDigits (k + 1) (c :: r) = none; rw [takeDigits, if_neg (by simp [hc])]
  | cons a t ih =>
    cases k with
    | zero => omega
    | succ k =>
      show takeDigits (k + 1) (a :: (t ++ c :: r)) = none
      rw [takeDigits, if_pos (dChar_isDigit (hg a (List.mem_cons_self a t))),
        ih k (fun x hx => hg x (List.mem_cons_of_mem _ hx)) (by simpa using hlen)]

lemma takeDigits_decomp {k : Nat} {cs g r : List Char}
    (h : takeDigits k cs = some (g, r)) : cs = g ++ r := by
  induction k generalizing cs g r with
  | zero =>
    rw [takeDigits] at h
    injection h with h
    injection h with h1 h2
    rw [← h1, ← h2]
    rfl
  | succ k ih =>
    cases cs with
    | nil => rw [takeDigits] at h; cases h
    | cons a t =>
      rw [takeDigits] at h
      by_cases ha : a.isDigit = true
      · rw [if_pos ha] at h
        rcases h2 : takeDigits k t with _ | ⟨g', r'⟩
        · rw [h2] at h; cases h
        · rw [h2] at h
          injection h with h
          injection h with h1 h3
          rw [← h1, ← h3, List.cons_append]
          rw [ih h2]
      · rw [if_neg ha] at h; cases h

/-! #### `matchLen` facts -/

lemma matchLen_eq (sep : Char) (g e rest : List Char)
    (hg : ∀ c ∈ g, c ∈ dChars) (he : ∀ c ∈ e, c ∈ dChars)
    (hel : e.length = 3) (hra : noDigitAhead rest = true) :
    matchLen sep g.length (g ++ sep :: (e ++ rest)) = some (g ++ e, rest) := by
  unfold matchLen
  rw [takeDigits_eq g (sep :: (e ++ rest)) hg]
  dsimp only
  rw [if_pos rfl, ← hel, takeDigits_eq e rest he]
  dsimp only
  rw [if_pos hra]

lemma matchLen_none_short (sep : Char) (k : Nat) (g rest : List Char)
    (hg : ∀ c ∈ g, c ∈ dChars) (hlen : g.length < k)
    (hsep : sep.isDigit = false) :
    matchLen sep k (g ++ sep :: rest) = none := by
  unfold matchLen
  rw [takeDigits_none k g sep rest hg hlen hsep]

lemma matchLen_none_digit (sep : Char) (g : List Char) (c : Char)
    (rest : List Char) (hg : ∀ x ∈ g, x ∈ dChars) (hc : c ∈ dChars)
    (hsep : sep.isDigit = false) :
    matchLen sep g.length (g ++ c :: rest) = none := by
  unfold matchLen
  rw [takeDigits_eq g (c :: rest) hg]
  dsimp only
  rw [if_neg (dChar_ne_sep hc hsep)]

lemma matchLen_none_digits (sep : Char) (k : Nat) (l : List Char)
    (hl : ∀ c ∈ l, c ∈ dChars) (hsep : sep.isDigit = false) :
    matchLen sep k l = none := by
  unfold matchLen
  rcases h : takeDigits k l with _ | ⟨g, r⟩
  · rfl
  · have hdec := takeDigits_decomp h
    rcases r with _ | ⟨s, r2⟩
    · rfl
    · dsimp only
      rw [if_neg]
      intro hss
      have hsl : s ∈ l := by
        rw [hdec]
        exact List.mem_append_right _ (List.mem_cons_self s r2)
      exact dChar_ne_sep (hl s hsl) hsep hss

lemma matchLen_some_mem {sep : Char} {k : Nat} {cs : List Char}
    {p : List Char × List Char} (h : matchLen sep k cs = some p) : sep ∈ cs := by
  unfold matchLen at h
  rcases h2 : takeDigits k cs with _ | ⟨g, r⟩
  · rw [h2] at h; cases h
  · rw [h2] at h
    rcases r with _ | ⟨s, r2⟩
    · cases h
    · by_cases hss : s = sep
      · rw [takeDigits_decomp h2, hss]
        exact List.mem_append_right _ (List.mem_cons_self sep r2)
      · dsimp only at h
        rw [if_neg hss] at h
        cases h

/-! #### `matchAt` facts -/

lemma matchAt_eq (sep : Char) (g e rest : List Char)
    (hg : ∀ c ∈ g, c ∈ dChars) (he : ∀ c ∈ e, c ∈ dChars)
    (hg1 : 1 ≤ g.length) (hg3 : g.length ≤ 3) (hel : e.length = 3)
    (hsep : sep.isDigit = false) (hra : noDigitAhead rest = true) :
    matchAt sep (g ++ sep :: (e ++ rest)) = some (g ++ e, rest) := by
  unfold matchAt
  match g, hg1, hg3 with
  | [a], _, _ =>
    rw [matchLen_none_short sep 3 [a] (e ++ rest) hg (by simp) hsep]
    rw [matchLen_none_short sep 2 [a] (e ++ rest) hg (by simp) hsep]
    rw [show (1 : Nat) = [a].length from rfl, matchLen_eq sep [a] e rest hg he hel hra]
  | [a, b], _, _ =>
    rw [matchLen_none_short sep 3 [a, b] (e ++ rest) hg (by simp) hsep]
    rw [show (2 : Nat) = [a, b].length from rfl,
      matchLen_eq sep [a, b] e rest hg he hel hra]
  | [a, b, c], _, _ =>
    rw [show (3 : Nat) = [a, b, c].length from rfl,
      matchLen_eq sep [a, b, c] e rest hg he hel hra]

lemma matchAt_none_nondigit (sep c : Char) (rest : List Char)
    (hc : c.isDigit = false) : matchAt sep (c :: rest) = none := by
  have h : ∀ k, matchLen sep (k + 1) (c :: rest) = none := by
    intro k
    unfold matchLen
    rw [show c :: rest = [] ++ c :: rest from rfl,
      takeDigits_none (k + 1) [] c rest (by simp) (by simp) hc]
  unfold matchAt
  rw [show (3 : Nat) = 2 + 1 from rfl, h 2, show (2 : Nat) = 1 + 1 from rfl,
    h 1, show (1 : Nat) = 0 + 1 from rfl, h 0]

lemma matchAt_none_fourdigits (sep a b c d : Char) (rest : List Char)
    (ha : a ∈ dChars) (hb : b ∈ dChars) (hc : c ∈ dChars) (hd : d ∈ dChars)
    (hsep : sep.isDigit = false) :
    matchAt sep (a :: b :: c :: d :: rest) = none := by
  unfold matchAt
  rw [show a :: b :: c :: d :: rest = [a, b, c] ++ d :: rest from rfl,
    show (3 : Nat) = [a, b, c].length from rfl,
    matchLen_none_digit sep [a, b, c] d rest
      (by intro x hx; rcases List.mem_cons.mp hx with rfl | hx;
          · exact ha
          · rcases List.mem_cons.mp hx with rfl | hx;
            · exact hb
            · simp only [List.mem_singleton] at hx; rw [hx]; exact hc)
      hd hsep]
  rw [show [a, b, c] ++ d :: rest = [a, b] ++ c :: d :: rest from by simp,
    show (2 : Nat) = [a, b].length from rfl,
    matchLen_none_digit sep [a, b] c (d :: rest)
      (by intro x hx; rcases List.mem_cons.mp hx with rfl | hx;
          · exact ha
          · simp only [List.mem_singleton] at hx; rw [hx]; exact hb)
      hc hsep]
  rw [show [a, b] ++ c :: d :: rest = [a] ++ b :: c :: d :: rest from by simp,
    show (1 : Nat) = [a].length from rfl,
    matchLen_none_digit sep [a] b (c :: d :: rest)
      (by intro x hx; simp only [List.mem_singleton] at hx; rw [hx]; exact ha)
      hb hsep]

lemma matchAt_none_digits (sep : Char) (l : List Char)
    (hl : ∀ c ∈ l, c ∈ dChars) (hsep : sep.isDigit = false) :
    matchAt sep l = none := by
  unfold matchAt
  rw [matchLen_none_digits sep 3 l hl hsep, matchLen_none_digits sep 2 l hl hsep,
    matchLen_none_digits sep 1 l hl hsep]

lemma matchAt_none_not_mem (sep : Char) (cs : List Char) (h : sep ∉ cs) :
    matchAt sep cs = none := by
  unfold matchAt
  rcases h3 : matchLen sep 3 cs with _ | p
  · rcases h2 : matchLen sep 2 cs with _ | p
    · rcases h1 : matchLen sep 1 cs with _ | p
      · rfl
      · exact absurd (matchLen_some_mem h1) h
    · exact absurd (matchLen_some_mem h2) h
  · exact absurd (matchLen_some_mem h3) h

/-! #### `subPassAux` facts -/

lemma subPassAux_nil (sep : Char) (fuel : Nat) : subPassAux sep fuel [] = [] := by
  cases fuel <;> rfl

lemma subPassAux_cons (sep : Char) (fuel : Nat) (c : Char) (cs : List Char) :
    subPassAux sep (fuel + 1) (c :: cs)
      = match matchAt sep (c :: cs) with
        | some (rep, rest) => rep ++ subPassAux sep fuel rest
        | none => c :: subPassAux sep fuel cs := rfl

lemma subPassAux_no_sep (sep : Char) (fuel : Nat) :
    ∀ cs : List Char, cs.length ≤ fuel → sep ∉ cs →
      subPassAux sep fuel cs = cs := by
  induction fuel with
  | zero => intro cs _ _; rfl
  | succ fuel ih =>
    intro cs hl hm
    cases cs with
    | nil => rfl
    | cons c cs' =>
      rw [subPassAux_cons, matchAt_none_not_mem sep _ hm]
      dsimp only
      rw [ih cs' (by simp only [List.length_cons] at hl; omega)
        (fun h => hm (List.mem_cons_of_mem _ h))]

lemma subPass_no_sep (sep : Char) (cs : List Char) (h : sep ∉ cs) :
    subPass sep cs = cs :=
  subPassAux_no_sep sep cs.length cs le_rfl h

lemma subPassAux_group (sep : Char) (fuel : Nat) (g e rest : List Char)
    (hg : ∀ c ∈ g, c ∈ dChars) (he : ∀ c ∈ e, c ∈ dChars)
    (hg1 : 1 ≤ g.length) (hg3 : g.length ≤ 3) (hel : e.length = 3)
    (hsep : sep.isDigit = false) (hra : noDigitAhead rest = true) :
    subPassAux sep (fuel + 1) (g ++ sep :: (e ++ rest))
      = (g ++ e) ++ subPassAux sep fuel rest := by
  obtain ⟨a, g', rfl⟩ : ∃ a g', g = a :: g' := by
    cases g with
    | nil => simp at hg1
    | cons a g' => exact ⟨a, g', rfl⟩
  rw [show (a :: g') ++ sep :: (e ++ rest) = a :: (g' ++ sep :: (e ++ rest))
      from rfl,
    subPassAux_cons,
    show a :: (g' ++ sep :: (e ++ rest)) = (a :: g') ++ sep :: (e ++ rest)
      from rfl,
    matchAt_eq sep (a :: g') e rest hg he hg1 hg3 hel hsep hra]

lemma exists_three (l : List Char) (h : 3 ≤ l.length) :
    ∃ b c d t, l = b :: c :: d :: t := by
  cases l with
  | nil => simp at h
  | cons b l =>
    cases l with
    | nil => simp at h
    | cons c l =>
      cases l with
      | nil => simp at h
      | cons d t => exact ⟨b, c, d, t, rfl⟩

lemma subPassAux_peel (sep : Char) (q f : List Char)
    (hq : ∀ c ∈ q, c ∈ dChars) (hf : ∀ c ∈ f, c ∈ dChars)
    (hql : q.length = 3) (hfl : f.length = 3) (hsep : sep.isDigit = false)
    (p : List Char) :
    ∀ fuel : Nat, (∀ c ∈ p, c ∈ dChars) →
      (p ++ q ++ sep :: f).length ≤ fuel →
      subPassAux sep fuel (p ++ q ++ sep :: f) = p ++ q ++ f := by
  induction p with
  | nil =>
    intro fuel _ hl
    obtain ⟨fuel', rfl⟩ : ∃ f', fuel = f' + 1 :=
      ⟨fuel - 1, by simp at hl; omega⟩
    rw [show ([] : List Char) ++ q ++ sep :: f = q ++ sep :: (f ++ []) from
        by simp,
      subPassAux_group sep fuel' q f [] hq hf (by omega) (by omega) hfl hsep
        rfl,
      subPassAux_nil]
    simp
  | cons a p' ih =>
    intro fuel hp hl
    obtain ⟨fuel', rfl⟩ : ∃ f', fuel = f' + 1 :=
      ⟨fuel - 1, by simp at hl; omega⟩
    have ha : a ∈ dChars := hp a (List.mem_cons_self a p')
    have hp' : ∀ c ∈ p', c ∈ dChars :=
      fun c hc => hp c (List.mem_cons_of_mem _ hc)
    have hpq : ∀ c ∈ p' ++ q, c ∈ dChars := by
      intro c hc
      rcases List.mem_append.mp hc with hc | hc
      · exact hp' c hc
      · exact hq c hc
    obtain ⟨b, c, d, t, hdec⟩ := exists_three (p' ++ q) (by simp [hql])
    have hb : b ∈ dChars := hpq b (by rw [hdec]; exact List.mem_cons_self _ _)
    have hcc : c ∈ dChars := hpq c (by
      rw [hdec]; exact List.mem_cons_of_mem _ (List.mem_cons_self _ _))
    have hd : d ∈ dChars := hpq d (by
      rw [hdec]
      exact List.mem_cons_of_mem _
        (List.mem_cons_of_mem _ (List.mem_cons_self _ _)))
    rw [show (a :: p') ++ q ++ sep :: f = a :: ((p' ++ q) ++ sep :: f) from
        rfl,
      hdec,
      show a :: ((b :: c :: d :: t) ++ sep :: f)
          = a :: b :: c :: d :: (t ++ sep :: f) from rfl,
      subPassAux_cons,
      matchAt_none_fourdigits sep a b c d _ ha hb hcc hd hsep]
    dsimp only
    rw [show b :: c :: d :: (t ++ sep :: f) = (b :: c :: d :: t) ++ sep :: f
        from rfl,
      ← hdec,
      show (p' ++ q) ++ sep :: f = p' ++ q ++ sep :: f from rfl,
      ih fuel' hp' (by
        rw [show (a :: p') ++ q ++ sep :: f = a :: (p' ++ q ++ sep :: f) from
          rfl] at hl
        simp only [List.length_cons] at hl
        omega)]
    rfl

lemma subPass_one_group (sep : Char) (g e : List Char)
    (hg : ∀ c ∈ g, c ∈ dChars) (he : ∀ c ∈ e, c ∈ dChars)
    (hg1 : 1 ≤ g.length) (hg3 : g.length ≤ 3) (hel : e.length = 3)
    (hsep : sep.isDigit = false) :
    subPass sep (g ++ sep :: e) = g ++ e := by
  unfold subPass
  obtain ⟨fuel', hf⟩ : ∃ f', (g ++ sep :: e).length = f' + 1 :=
    ⟨g.length + e.length, by simp; omega⟩
  rw [hf,
    show g ++ sep :: e = g ++ sep :: (e ++ []) from by simp,
    subPassAux_group sep fuel' g e [] hg he hg1 hg3 hel hsep rfl,
    subPassAux_nil]
  simp

lemma subPass_two_groups (sep : Char) (g e f : List Char)
    (hg : ∀ c ∈ g, c ∈ dChars) (he : ∀ c ∈ e, c ∈ dChars)
    (hf : ∀ c ∈ f, c ∈ dChars)
    (hg1 : 1 ≤ g.length) (hg3 : g.length ≤ 3) (hel : e.length = 3)
    (hfl : f.length = 3) (hsep : sep.isDigit = false) :
    subPass sep (g ++ sep :: (e ++ sep :: f)) = (g ++ e) ++ sep :: f := by
  unfold subPass
  obtain ⟨fuel', hfu⟩ : ∃ f', (g ++ sep :: (e ++ sep :: f)).length = f' + 1 :=
    ⟨g.length + e.length + f.length + 1, by simp; omega⟩
  rw [hfu,
    subPassAux_group sep fuel' g e (sep :: f) hg he hg1 hg3 hel hsep
      (by simp [noDigitAhead, hsep])]
  obtain ⟨fuel'', rfl⟩ : ∃ f'', fuel' = f'' + 1 := by
    refine ⟨fuel' - 1, ?_⟩
    simp only [List.length_append, List.length_cons] at hfu
    omega
  rw [subPassAux_cons, matchAt_none_nondigit sep sep f hsep]
  dsimp only
  rw [subPassAux_no_sep sep fuel'' f
    (by
      simp only [List.length_append, List.length_cons] at hfu
      omega)
    (sep_not_mem f hf hsep)]

lemma subPass_peeled (sep : Char) (p q f : List Char)
    (hp : ∀ c ∈ p, c ∈ dChars) (hq : ∀ c ∈ q, c ∈ dChars)
    (hf : ∀ c ∈ f, c ∈ dChars)
    (hql : q.length = 3) (hfl : f.length = 3) (hsep : sep.isDigit = false) :
    subPass sep (p ++ q ++ sep :: f) = p ++ q ++ f :=
  subPassAux_peel sep q f hq hf hql hfl hsep p _ hp le_rfl

/-! #### `pyStrip` and `pyLower` identities -/

lemma pyStrip_eq_self (cs : List Char)
    (hh : ∀ c, cs.head? = some c → isPySpace c = false)
    (hl : ∀ c, cs.getLast? = some c → isPySpace c = false) :
    pyStrip cs = cs := by
  cases cs with
  | nil => rfl
  | cons a t =>
    unfold pyStrip
    rw [List.dropWhile_cons, hh a rfl, if_neg Bool.false_ne_true]
    rcases hrev : (a :: t).reverse with _ | ⟨b, s⟩
    · exact absurd hrev (by simp)
    · rw [List.dropWhile_cons]
      have hb : isPySpace b = false := by
        apply hl
        rw [← List.head?_reverse, hrev]
        rfl
      rw [hb, if_neg Bool.false_ne_true, ← hrev, List.reverse_reverse]

lemma pyLower_eq_self (cs : List Char) (h : ∀ c ∈ cs, pyLowerChar c = c) :
    pyLower cs = cs := by
  induction cs with
  | nil => rfl
  | cons a t ih =>
    show pyLowerChar a :: pyLower t = a :: t
    rw [h a (List.mem_cons_self a t),
      ih (fun c hc => h c (List.mem_cons_of_mem _ hc))]

/-! #### `groupThousands` shape facts -/

lemma groupThousandsAux_small (sep : Char) (fuel : Nat) (ds : List Char)
    (h : ds.length ≤ 3) : groupThousandsAux sep fuel ds = ds := by
  cases fuel with
  | zero => rfl
  | succ fuel =>
    show (if ds.length ≤ 3 then ds
      else groupThousandsAux sep fuel (ds.take (ds.length - 3))
        ++ sep :: ds.drop (ds.length - 3)) = ds
    rw [if_pos h]

lemma groupThousandsAux_step (sep : Char) (fuel : Nat) (ds : List Char)
    (h : ¬ ds.length ≤ 3) :
    groupThousandsAux sep (fuel + 1) ds
      = groupThousandsAux sep fuel (ds.take (ds.length - 3))
        ++ sep :: ds.drop (ds.length - 3) := by
  show (if ds.length ≤ 3 then ds
    else groupThousandsAux sep fuel (ds.take (ds.length - 3))
      ++ sep :: ds.drop (ds.length - 3)) = _
  rw [if_neg h]

lemma groupThousandsAux_mid (sep : Char) (fuel : Nat) (ds : List Char)
    (h4 : 4 ≤ ds.length) (h6 : ds.length ≤ 6) :
    groupThousandsAux sep (fuel + 1) ds
      = ds.take (ds.length - 3) ++ sep :: ds.drop (ds.length - 3) := by
  rw [groupThousandsAux_step sep fuel ds (by omega),
    groupThousandsAux_small sep fuel _ (by simp [List.length_take]; omega)]

lemma groupThousands_small (sep : Char) (ds : List Char) (h : ds.length ≤ 3) :
    groupThousands sep ds = ds :=
  groupThousandsAux_small sep ds.length ds h

lemma groupThousands_mid (sep : Char) (ds : List Char)
    (h4 : 4 ≤ ds.length) (h6 : ds.length ≤ 6) :
    groupThousands sep ds
      = ds.take (ds.length - 3) ++ sep :: ds.drop (ds.length - 3) := by
  show groupThousandsAux sep ds.length ds = _
  have e : ds.length = (ds.length - 1) + 1 := by omega
  conv_lhs => rw [e]
  rw [groupThousandsAux_mid sep (ds.length - 1) ds h4 h6]

lemma groupThousands_big (sep : Char) (ds : List Char)
    (h7 : 7 ≤ ds.length) (h9 : ds.length ≤ 9) :
    groupThousands sep ds
      = ds.take (ds.length - 6)
        ++ sep :: ((ds.drop (ds.length - 6)).take 3
          ++ sep :: ds.drop (ds.length - 3)) := by
  show groupThousandsAux sep ds.length ds = _
  have e : ds.length = (ds.length - 1) + 1 := by omega
  conv_lhs => rw [e]
  rw [groupThousandsAux_step sep (ds.length - 1) ds (by omega)]
  have e2 : ds.length - 1 = (ds.length - 2) + 1 := by omega
  rw [e2, groupThousandsAux_mid sep (ds.length - 2) (ds.take (ds.length - 3))
    (by simp [List.length_take]; omega) (by simp [List.length_take]; omega)]
  have hT : (ds.take (ds.length - 3)).length = ds.length - 3 := by
    simp [List.length_take]
  rw [hT, show ds.length - 3 - 3 = ds.length - 6 from by omega,
    List.take_take,
    show min (ds.length - 6) (ds.length - 3) = ds.length - 6 from by omega,
    List.drop_take,
    show ds.length - 3 - (ds.length - 6) = 3 from by omega]
  simp [List.append_assoc]

lemma groupThousandsAux_mem (sep : Char) (fuel : Nat) :
    ∀ ds, ∀ c ∈ groupThousandsAux sep fuel ds, c ∈ ds ∨ c = sep := by
  induction fuel with
  | zero => intro ds c hc; exact Or.inl hc
  | succ fuel ih =>
    intro ds c hc
    by_cases h3 : ds.length ≤ 3
    · rw [groupThousandsAux_small sep _ ds h3] at hc
      exact Or.inl hc
    · rw [groupThousandsAux_step sep fuel ds h3] at hc
      rcases List.mem_append.mp hc with hc | hc
      · rcases ih _ c hc with hc | hc
        · exact Or.inl (List.take_subset _ _ hc)
        · exact Or.inr hc
      · rcases List.mem_cons.mp hc with rfl | hc
        · exact Or.inr rfl
        · exact Or.inl (List.drop_subset _ _ hc)

lemma groupThousands_mem (sep : Char) (ds : List Char) :
    ∀ c ∈ groupThousands sep ds, c ∈ ds ∨ c = sep :=
  groupThousandsAux_mem sep ds.length ds

lemma groupThousandsAux_head (sep : Char) (fuel : Nat) :
    ∀ ds : List Char, (groupThousandsAux sep fuel ds).head? = ds.head? := by
  induction fuel with
  | zero => intro ds; rfl
  | succ fuel ih =>
    intro ds
    by_cases h3 : ds.length ≤ 3
    · rw [groupThousandsAux_small sep _ ds h3]
    · rw [groupThousandsAux_step sep fuel ds h3]
      obtain ⟨d, ds', rfl⟩ : ∃ d ds', ds = d :: ds' := by
        cases ds with
        | nil => simp at h3
        | cons d ds' => exact ⟨d, ds', rfl⟩
      have e : (d :: ds').length - 3 = (ds'.length - 3) + 1 := by
        simp only [List.length_cons] at h3 ⊢
        omega
      rw [e, List.take_succ_cons]
      have hh := ih (d :: ds'.take (ds'.length - 3))
      rcases hA : groupThousandsAux sep fuel (d :: ds'.take (ds'.length - 3))
        with _ | ⟨a0, A'⟩
      · rw [hA] at hh
        simp at hh
      · rw [hA] at hh
        simp only [List.head?_cons] at hh
        simp only [List.cons_append, List.head?_cons]
        exact hh

lemma getLast?_drop_my (ds : List Char) (k : Nat) (h : ds.drop k ≠ []) :
    (ds.drop k).getLast? = ds.getLast? := by
  conv_rhs => rw [← List.take_append_drop k ds]
  rw [List.getLast?_append_of_ne_nil _ h]

lemma groupThousandsAux_last (sep : Char) (fuel : Nat) (ds : List Char) :
    (groupThousandsAux sep fuel ds).getLast? = ds.getLast? := by
  cases fuel with
  | zero => rfl
  | succ fuel =>
    by_cases h3 : ds.length ≤ 3
    · rw [groupThousandsAux_small sep _ ds h3]
    · rw [groupThousandsAux_step sep fuel ds h3]
      have hd : ds.drop (ds.length - 3) ≠ [] := by
        intro h
        have := congrArg List.length h
        simp at this
        omega
      rw [List.getLast?_append_of_ne_nil _ (by simp :
          sep :: ds.drop (ds.length - 3) ≠ []),
        show sep :: ds.drop (ds.length - 3)
          = [sep] ++ ds.drop (ds.length - 3) from rfl,
        List.getLast?_append_of_ne_nil _ hd,
        getLast?_drop_my ds _ hd]

/-! #### The full normalization pipeline on rendered numbers -/

lemma digits_strip_lower (ds : List Char) (hds : ∀ c ∈ ds, c ∈ dChars) :
    pyLower (pyStrip ds) = ds := by
  rw [pyStrip_eq_self ds
      (fun c hc => dChar_not_pyspace
        (hds c (List.mem_of_mem_head? (by rw [hc]; rfl))))
      (fun c hc => dChar_not_pyspace
        (hds c (List.mem_of_mem_getLast? (by rw [hc]; rfl)))),
    pyLower_eq_self ds (fun c hc => dChar_lower (hds c hc))]

lemma group_strip_lower (sep : Char) (ds : List Char)
    (hds : ∀ c ∈ ds, c ∈ dChars) (hlow : pyLowerChar sep = sep) :
    pyLower (pyStrip (groupThousands sep ds)) = groupThousands sep ds := by
  have hh : ∀ c, (groupThousands sep ds).head? = some c →
      isPySpace c = false := by
    intro c hc
    have hc2 : ds.head? = some c := by
      rw [← groupThousandsAux_head sep ds.length ds]
      exact hc
    exact dChar_not_pyspace (hds c (List.mem_of_mem_head? (by rw [hc2]; rfl)))
  have hl : ∀ c, (groupThousands sep ds).getLast? = some c →
      isPySpace c = false := by
    intro c hc
    have hc2 : ds.getLast? = some c := by
      rw [← groupThousandsAux_last sep ds.length ds]
      exact hc
    exact dChar_not_pyspace
      (hds c (List.mem_of_mem_getLast? (by rw [hc2]; rfl)))
  rw [pyStrip_eq_self _ hh hl, pyLower_eq_self _ (fun c hc => by
    rcases groupThousands_mem sep ds c hc with h | rfl
    · exact dChar_lower (hds c h)
    · exact hlow)]

lemma double_subPass_group (sep : Char) (ds : List Char)
    (hds : ∀ c ∈ ds, c ∈ dChars) (h1 : 1 ≤ ds.length) (h9 : ds.length ≤ 9)
    (hsep : sep.isDigit = false) :
    subPass sep (subPass sep (groupThousands sep ds)) = ds := by
  by_cases h3 : ds.length ≤ 3
  · rw [groupThousands_small sep ds h3,
      subPass_no_sep sep ds (sep_not_mem ds hds hsep),
      subPass_no_sep sep ds (sep_not_mem ds hds hsep)]
  · have htake : ∀ c ∈ ds.take (ds.length - 3), c ∈ dChars :=
      fun c hc => hds c (List.take_subset _ _ hc)
    have hdrop : ∀ c ∈ ds.drop (ds.length - 3), c ∈ dChars :=
      fun c hc => hds c (List.drop_subset _ _ hc)
    by_cases h6 : ds.length ≤ 6
    · rw [groupThousands_mid sep ds (by omega) h6,
        subPass_one_group sep _ _ htake hdrop
          (by simp [List.length_take]; omega)
          (by simp [List.length_take]; omega)
          (by simp; omega) hsep,
        List.take_append_drop]
      exact subPass_no_sep sep ds (sep_not_mem ds hds hsep)
    · have hX : ∀ c ∈ ds.take (ds.length - 6), c ∈ dChars :=
        fun c hc => hds c (List.take_subset _ _ hc)
      have hY : ∀ c ∈ (ds.drop (ds.length - 6)).take 3, c ∈ dChars :=
        fun c hc => hds c (List.drop_subset _ _ (List.take_subset _ _ hc))
      rw [groupThousands_big sep ds (by omega) h9,
        subPass_two_groups sep _ _ _ hX hY hdrop
          (by simp [List.length_take]; omega)
          (by simp [List.length_take]; omega)
          (by simp [List.length_take]; omega)
          (by simp; omega) hsep,
        subPass_peeled sep _ _ _ hX hY hdrop
          (by simp [List.length_take]; omega)
          (by simp; omega) hsep,
        List.append_assoc,
        show ds.drop (ds.length - 3) = (ds.drop (ds.length - 6)).drop 3 from
          by rw [List.drop_drop]; congr 1; omega,
        List.take_append_drop, List.take_append_drop]

lemma normalize_render (a : Nat) (ha1 : 1 ≤ a) (ha : a < 10 ^ 9)
    (nt : NumNotation) :
    _normalize_answer (renderNum a nt) = String.mk (digitsOf a) := by
  have hds := digitsOf_mem a
  have hl1 := digitsOf_pos ha1
  have hl9 := digitsOf_len ha
  cases nt with
  | plain =>
    show _normalize_answer (String.mk (digitsOf a)) = _
    unfold _normalize_answer
    dsimp only
    rw [show (String.mk (digitsOf a)).toList = digitsOf a from rfl,
      digits_strip_lower _ hds,
      subPass_no_sep '.' _ (sep_not_mem _ hds (by decide)),
      subPass_no_sep '.' _ (sep_not_mem _ hds (by decide)),
      subPass_no_sep ' ' _ (sep_not_mem _ hds (by decide)),
      subPass_no_sep ' ' _ (sep_not_mem _ hds (by decide))]
  | dotSep =>
    show _normalize_answer (String.mk (groupThousands '.' (digitsOf a))) = _
    unfold _normalize_answer
    dsimp only
    rw [show (String.mk (groupThousands '.' (digitsOf a))).toList
        = groupThousands '.' (digitsOf a) from rfl,
      group_strip_lower '.' _ hds (by decide),
      double_subPass_group '.' _ hds hl1 hl9 (by decide),
      subPass_no_sep ' ' _ (sep_not_mem _ hds (by decide)),
      subPass_no_sep ' ' _ (sep_not_mem _ hds (by decide))]
  | spaceSep =>
    show _normalize_answer (String.mk (groupThousands ' ' (digitsOf a))) = _
    unfold _normalize_answer
    dsimp only
    have hnm : ('.' : Char) ∉ groupThousands ' ' (digitsOf a) := by
      intro hm
      rcases groupThousands_mem ' ' _ '.' hm with h | h
      · exact absurd (dChar_isDigit (hds _ h)) (by decide)
      · exact absurd h (by decide)
    rw [show (String.mk (groupThousands ' ' (digitsOf a))).toList
        = groupThousands ' ' (digitsOf a) from rfl,
      group_strip_lower ' ' _ hds (by decide),
      subPass_no_sep '.' _ hnm,
      subPass_no_sep '.' _ hnm,
      double_subPass_group ' ' _ hds hl1 hl9 (by decide)]

/-- C8 (amended): for positive integers below one billion (at most nine
digits), written in any of the three supported notations, the normalized
strings agree exactly when the numbers agree. -/
theorem claim_C8_normalize_iff (a b : Nat) (ha1 : 1 ≤ a) (ha : a < 10 ^ 9)
    (hb1 : 1 ≤ b) (hb : b < 10 ^ 9) (na nb : NumNotation) :
    (_normalize_answer (renderNum a na) = _normalize_answer (renderNum b nb))
      ↔ a = b := by
  rw [normalize_render a ha1 ha na, normalize_render b hb1 hb nb]
  constructor
  · intro h
    injection h with h2
    exact digitsOf_inj h2
  · rintro rfl
    rfl

/-- C8 (counterexample): at ten digits the claimed equivalence fails — the
same number `1234567890` written dot-separated and plain normalizes to two
different strings. -/
theorem claim_C8_counterexample :
    ¬ (_normalize_answer (renderNum 1234567890 NumNotation.dotSep)
          = _normalize_answer (renderNum 1234567890 NumNotation.plain)
        ↔ (1234567890 : Nat) = 1234567890) := by
  intro h
  exact absurd (h.mpr rfl) (by decide)

theorem claim_C8_normalize_iff_witness :
    (_normalize_answer (renderNum 290000 NumNotation.dotSep)
        = _normalize_answer (renderNum 290000 NumNotation.plain)) ∧
    ¬ _normalize_answer (renderNum 290000 NumNotation.spaceSep)
        = _normalize_answer (renderNum 123 NumNotation.plain) :=
  ⟨(claim_C8_normalize_iff 290000 290000 (by norm_num) (by norm_num)
      (by norm_num) (by norm_num) NumNotation.dotSep NumNotation.plain).mpr
      rfl,
    fun h =>
      absurd ((claim_C8_normalize_iff 290000 123 (by norm_num) (by norm_num)
        (by norm_num) (by norm_num) NumNotation.spaceSep
        NumNotation.plain).mp h) (by norm_num)⟩

end Avatar
